import Mathlib

/-!
Verification model of the StarlightCatalogService generation pipeline
(`generate-index.js`, zip/aggregation variant): JSON documents, path and
string helpers, digest construction, embedded-media extraction and URL
rewriting, Program-package unpacking and dependency aggregation, and the
recursive tree walker that builds per-directory `index.json` manifests.

External collaborators (the Node runtime's `JSON.parse`, `Date.parse`,
and the zip extractor) are passed in as explicit function parameters of a
context record, so all definitions stay executable.
-/

/-- JSON value, the shape of every document the pipeline reads and writes.
Objects are ordered key/value lists, matching JavaScript insertion order. -/
inductive JVal where
  | null : JVal
  | bool : Bool → JVal
  | num : Int → JVal
  | str : String → JVal
  | arr : List JVal → JVal
  | obj : List (String × JVal) → JVal

/-- Lookup of a key in an object's field list (first binding wins, as in a
JavaScript object, whose keys are unique). -/
def jLookup : List (String × JVal) → String → Option JVal
  | [], _ => none
  | (k', v) :: rest, k => if k' = k then some v else jLookup rest k

/-- Property read `o[k]`: `none` models JavaScript `undefined` (also the
result of reading a property of a non-object primitive). -/
def getField : JVal → String → Option JVal
  | JVal.obj kvs, k => jLookup kvs k
  | _, _ => none

/-- Property read defaulting to `null` when the field is absent. -/
def getFieldD (j : JVal) (k : String) : JVal :=
  (getField j k).getD JVal.null

/-- Replace the first binding of `k`, keeping its position; append if absent. -/
def jStore : List (String × JVal) → String → JVal → List (String × JVal)
  | [], k, v => [(k, v)]
  | (k', v') :: rest, k, v =>
    if k' = k then (k, v) :: rest else (k', v') :: jStore rest k v

/-- Property write `o[k] = v`. On a non-object value the write is a silent
no-op, as in sloppy-mode JavaScript for primitives (and serialization drops
non-index properties of arrays). -/
def setField : JVal → String → JVal → JVal
  | JVal.obj kvs, k, v => JVal.obj (jStore kvs k v)
  | j, _, _ => j

/-- Remove every binding of a key from a field list. -/
def jErase : List (String × JVal) → String → List (String × JVal)
  | [], _ => []
  | (k', v') :: rest, k =>
    if k' = k then jErase rest k else (k', v') :: jErase rest k

/-- Property deletion `delete o[k]`; a no-op on non-objects. -/
def delField : JVal → String → JVal
  | JVal.obj kvs, k => JVal.obj (jErase kvs k)
  | j, _ => j

/-- JavaScript truthiness of a value: `null`, `false`, `0` and `""` are
falsy; arrays and objects are always truthy. -/
def jTruthy : JVal → Bool
  | JVal.null => false
  | JVal.bool b => b
  | JVal.num n => n != 0
  | JVal.str s => s ≠ ""
  | JVal.arr _ => true
  | JVal.obj _ => true

/-- Truthiness of a possibly-absent value (`undefined` is falsy). -/
def jTruthyO : Option JVal → Bool
  | none => false
  | some v => jTruthy v

/-- The JavaScript idiom `x || d`: keep `x` if truthy, else use the default. -/
def jOr (x : Option JVal) (d : JVal) : JVal :=
  match x with
  | some v => if jTruthy v then v else d
  | none => d

/-- The idiom `x || {}` applied to an optional field read. -/
def jOrObj (x : Option JVal) : JVal :=
  jOr x (JVal.obj [])

/-- Elements of a field expected to hold an array, `[]` otherwise (the code
reaches non-array truthy values only on inputs that would abort the run). -/
def jArrField (j : JVal) (k : String) : List JVal :=
  match getField j k with
  | some (JVal.arr xs) => xs
  | _ => []

mutual
/-- Structural equality test on JSON values (used to model `Set` membership
of id values, which in practice are strings or numbers). -/
def jEqB : JVal → JVal → Bool
  | JVal.null, JVal.null => true
  | JVal.bool a, JVal.bool b => a == b
  | JVal.num a, JVal.num b => a == b
  | JVal.str a, JVal.str b => a == b
  | JVal.arr a, JVal.arr b => jEqBArr a b
  | JVal.obj a, JVal.obj b => jEqBObj a b
  | _, _ => false
def jEqBArr : List JVal → List JVal → Bool
  | [], [] => true
  | a :: as', b :: bs => jEqB a b && jEqBArr as' bs
  | _, _ => false
def jEqBObj : List (String × JVal) → List (String × JVal) → Bool
  | [], [] => true
  | (ka, va) :: as', (kb, vb) :: bs => ka == kb && jEqB va vb && jEqBObj as' bs
  | _, _ => false
end

mutual
/-- String coercion as performed by a template literal or by passing the
value to a string-consuming runtime function. -/
def jToStr : JVal → String
  | JVal.null => "null"
  | JVal.bool b => if b then "true" else "false"
  | JVal.num n => toString n
  | JVal.str s => s
  | JVal.arr xs => jToStrArr xs
  | JVal.obj _ => "[object Object]"
def jToStrArr : List JVal → String
  | [] => ""
  | [x] => jToStr x
  | x :: rest => jToStr x ++ "," ++ jToStrArr rest
end

/-- Object spread `{...a, ...b}`: keys of `b` overwrite or extend `a`
(meaningful only when both are objects, as at its call site). -/
def objMerge (a b : JVal) : JVal :=
  match a, b with
  | JVal.obj as', JVal.obj bs => JVal.obj (bs.foldl (fun acc (k, v) => jStore acc k v) as')
  | _, _ => a

/- ### Character-level string helpers
The pipeline's path manipulation is re-implemented over `List Char` so that
every function evaluates by kernel reduction. -/

/-- ASCII lower-casing of one character. -/
def charToLower (c : Char) : Char :=
  if 65 ≤ c.toNat ∧ c.toNat ≤ 90 then Char.ofNat (c.toNat + 32) else c

/-- ASCII lower-casing of a string (the identifiers compared by the pipeline
are ASCII). -/
def strToLower (s : String) : String :=
  String.mk (s.data.map charToLower)

/-- Test whether `pre` is a prefix of `s`. -/
def strStartsWith (s pre : String) : Bool :=
  pre.data.isPrefixOf s.data

/-- Test whether `suf` is a suffix of `s`. -/
def strEndsWith (s suf : String) : Bool :=
  suf.data.reverse.isPrefixOf s.data.reverse

/-- Drop the last `n` characters of a string. -/
def strDropRight (s : String) (n : Nat) : String :=
  String.mk (s.data.take (s.data.length - n))

/-- Whitespace class of the `\s` regex (ASCII part). -/
def charIsSpace (c : Char) : Bool :=
  c == ' ' || c == '\t' || c == '\n' || c == '\r' || c == '\x0b' || c == '\x0c'

/-- Core of `sanitizeForFilesystem`: each maximal run of whitespace becomes a
single dash; the flag records whether the previous character was whitespace. -/
def sanitizeAux : Bool → List Char → List Char
  | _, [] => []
  | prevSpace, c :: rest =>
    if charIsSpace c then
      if prevSpace then sanitizeAux true rest
      else '-' :: sanitizeAux true rest
    else c :: sanitizeAux false rest

/-- Replace all whitespace runs in a string with dashes for file system
safety (`name.replace(/\s+/g, "-")`). -/
def sanitizeForFilesystem (name : String) : String :=
  String.mk (sanitizeAux false name.data)

/-- Split a character list on a separator character. -/
def splitOnCharAux (sep : Char) : List Char → List Char → List (List Char)
  | [], acc => [acc.reverse]
  | c :: rest, acc =>
    if c = sep then acc.reverse :: splitOnCharAux sep rest []
    else splitOnCharAux sep rest (c :: acc)

/-- Split a string into its `/`-separated components. -/
def strSplitSlash (s : String) : List String :=
  (splitOnCharAux '/' s.data []).map String.mk

/-- Join components with `/`. -/
def joinSlash : List String → String
  | [] => ""
  | [x] => x
  | x :: rest => x ++ "/" ++ joinSlash rest

/-- POSIX `path.basename`: the component after the last slash. -/
def posixBasename (p : String) : String :=
  (strSplitSlash p).getLastD ""

/-- POSIX `path.dirname`: everything before the last slash, `"."` when the
path has no slash (paths here are relative). -/
def posixDirname (p : String) : String :=
  let parts := strSplitSlash p
  if parts.length ≤ 1 then "." else joinSlash (parts.dropLast)

/-- POSIX `path.join` of two segments: concatenate and normalize away empty
and `"."` components, giving `"."` when nothing remains. -/
def posixJoin (a b : String) : String :=
  let parts := (strSplitSlash a ++ strSplitSlash b).filter (fun s => s ≠ "" ∧ s ≠ ".")
  if parts = [] then "." else joinSlash parts

/-- POSIX join of three segments. -/
def posixJoin3 (a b c : String) : String :=
  posixJoin (posixJoin a b) c

/-- POSIX join of four segments. -/
def posixJoin4 (a b c d : String) : String :=
  posixJoin (posixJoin3 a b c) d

/-- Accumulator scan recording the index of the latest `.` seen so far. -/
def lastDotIdxAux : List Char → Nat → Option Nat → Option Nat
  | [], _, best => best
  | c :: rest, i, best =>
    lastDotIdxAux rest (i + 1) (if c = '.' then some i else best)

/-- Index of the last `.` in a character list, if any. -/
def lastDotIdx (l : List Char) : Option Nat :=
  lastDotIdxAux l 0 none

/-- Node `path.extname`: the suffix of the basename from its last dot, `""`
when the basename has no dot or starts with its only dot. -/
def extname (p : String) : String :=
  let b := (posixBasename p).data
  match lastDotIdx b with
  | some i => if i = 0 then "" else String.mk (b.drop i)
  | none => ""

/-- Node `path.basename(p, ext)`: the basename with the suffix `ext`
removed when it matches properly. -/
def basenameMinusExt (p ext : String) : String :=
  let b := posixBasename p
  if ext ≠ "" ∧ strEndsWith b ext ∧ b.length > ext.length then
    strDropRight b ext.length
  else b

/-- Remove a trailing `.json` extension, case-insensitively
(`filePath.replace(/\.json$/i, "")`). -/
def stripJsonExtension (filePath : String) : String :=
  if strEndsWith (strToLower filePath) ".json" then strDropRight filePath 5
  else filePath

/-- Remove a trailing `.zip` extension, case-insensitively
(`s.replace(/\.zip$/i, "")`). -/
def stripZipExtension (s : String) : String :=
  if strEndsWith (strToLower s) ".zip" then strDropRight s 4 else s

/-- Extract the top-level folder name from a relative path, e.g.
`"Persons/Featured/David.json"` gives `"Persons"`. -/
def getTopLevelFolder (webRelativePath : String) : String :=
  if webRelativePath = "" then ""
  else (strSplitSlash webRelativePath).headD ""

/- ### File trees and run context -/

/-- Content of one file in a modelled file system: either raw bytes (source
files, zip payloads) or a JSON document the pipeline itself serialized. -/
inductive JContent where
  | rawc : String → JContent
  | jsonc : JVal → JContent

/-- Directory tree with named entries, modelling both the source repository
and the unpacked/output folders. Entry order models directory listing
order. -/
inductive JTree where
  | file : JContent → JTree
  | dir : List (String × JTree) → JTree

/-- Run context bundling the configuration value `baseUrl` and the external
runtime collaborators: the current time in epoch seconds (`Date.now`),
`Date.parse` (milliseconds, `none` for `NaN`), `JSON.parse` (`none` when it
throws), and the zip extractor mapping an archive's bytes to the extracted
tree. -/
structure Ctx where
  baseUrl : String
  now : Int
  dateParse : String → Option Int
  parse : String → Option JVal
  unzip : String → JTree

/-- Result of `JSON.parse` on a file's content; `parseJsonFile` yields
`null` on a read or parse failure, and every caller guards with a
truthiness test (`if (!json)`), so the two are fused: `none` means the
parse failed or produced a falsy value. -/
def parseContent (ctx : Ctx) : JContent → Option JVal
  | JContent.rawc s =>
    match ctx.parse s with
    | some v => if jTruthy v then some v else none
    | none => none
  | JContent.jsonc v => if jTruthy v then some v else none

/-- Optional-content variant of `parseContent`, for possibly-missing files. -/
def parseContentO (ctx : Ctx) : Option JContent → Option JVal
  | some c => parseContent ctx c
  | none => none

/-- Lookup of a directly-named child entry of a directory. -/
def entryLookup : List (String × JTree) → String → Option JTree
  | [], _ => none
  | (n, t) :: rest, k => if n = k then some t else entryLookup rest k

/-- Content of a child entry that is a file, `none` for directories or
missing entries (reading a directory as a file throws and is caught). -/
def entryFile (es : List (String × JTree)) (k : String) : Option JContent :=
  match entryLookup es k with
  | some (JTree.file c) => some c
  | _ => none

/-- Whether a child entry of any kind exists (`fs.existsSync`). -/
def entryExists (es : List (String × JTree)) (k : String) : Bool :=
  (entryLookup es k).isSome

/-- Subtree at a path of entry names. -/
def treeGet : JTree → List String → Option JTree
  | t, [] => some t
  | JTree.dir es, n :: rest =>
    match entryLookup es n with
    | some t => treeGet t rest
    | none => none
  | JTree.file _, _ :: _ => none

/-- File content at a path of entry names. -/
def treeGetFile (t : JTree) (p : List String) : Option JContent :=
  match treeGet t p with
  | some (JTree.file c) => some c
  | _ => none

/- ### Digest construction -/

/-- Convert a date/time value to a Unix epoch in seconds: falsy values give
the current time, numbers pass through unchanged, and anything else is
parsed with `Date.parse` (milliseconds, floored to seconds), falling back
to the current time on `NaN`. -/
def toUnixEpochSeconds (ctx : Ctx) (dateVal : Option JVal) : JVal :=
  match dateVal with
  | none => JVal.num ctx.now
  | some v =>
    if jTruthy v then
      match v with
      | JVal.num n => JVal.num n
      | w =>
        match ctx.dateParse (jToStr w) with
        | some ms => JVal.num (Int.fdiv ms 1000)
        | none => JVal.num ctx.now
    else JVal.num ctx.now

/-- Sentinel image reference used when no image information is found. -/
def noImage : JVal :=
  JVal.obj [("kind", JVal.str "bundle"), ("name", JVal.str "no_image")]

/-- Decode the image source from `spec.imageSource`, or from the serialized
`spec.extraData.data.imageSourceJson` string, falling back to the
`no_image` sentinel when absent or unparsable. -/
def decodeImageSource (ctx : Ctx) (specObj : JVal) : JVal :=
  if jTruthyO (getField specObj "imageSource") then getFieldD specObj "imageSource"
  else
    match getField specObj "extraData" with
    | some ed =>
      if jTruthy ed then
        match getField ed "data" with
        | some d =>
          if jTruthy d then
            match getField d "imageSourceJson" with
            | some (JVal.str s) =>
              match ctx.parse s with
              | some v => v
              | none => noImage
            | _ => noImage
          else noImage
        | none => noImage
      else noImage
    | none => noImage

/-- Person digest fields, with documented defaults. -/
def parsePersonDigest (ctx : Ctx) (m : JVal) (uid : String) : JVal :=
  JVal.obj [
    ("entityType", JVal.str "Person"),
    ("id", jOr (getField m "id") (JVal.str uid)),
    ("name", jOr (getField m "name") (JVal.str "")),
    ("personality", jOr (getField m "personality") (JVal.str "dj")),
    ("voice", jOr (getField m "voice") (JVal.str "")),
    ("imageSource", decodeImageSource ctx m),
    ("type", jOr (getField m "type") (JVal.str "userdefined")),
    ("lastModified", toUnixEpochSeconds ctx (getField m "lastModified"))]

/-- Feed digest fields. -/
def parseFeedDigest (ctx : Ctx) (m : JVal) (uid : String) : JVal :=
  JVal.obj [
    ("entityType", JVal.str "Feed"),
    ("id", jOr (getField m "id") (JVal.str uid)),
    ("name", jOr (getField m "name") (JVal.str "")),
    ("source", jOr (getField m "source") (JVal.str "")),
    ("url", jOr (getField m "url") JVal.null),
    ("imageSource", decodeImageSource ctx m),
    ("lastModified", toUnixEpochSeconds ctx (getField m "lastModified"))]

/-- SoundSet digest fields. -/
def parseSoundSetDigest (ctx : Ctx) (m : JVal) (uid : String) : JVal :=
  JVal.obj [
    ("entityType", JVal.str "SoundSet"),
    ("id", jOr (getField m "id") (JVal.str uid)),
    ("name", jOr (getField m "name") (JVal.str "")),
    ("imageSource", decodeImageSource ctx m),
    ("type", jOr (getField m "type") (JVal.str "userdefined")),
    ("lastModified", toUnixEpochSeconds ctx (getField m "lastModified"))]

/-- GenerativeAi digest fields. -/
def parseGenerativeAiDigest (ctx : Ctx) (m : JVal) (uid : String) : JVal :=
  JVal.obj [
    ("entityType", JVal.str "GenerativeAi"),
    ("id", jOr (getField m "id") (JVal.str uid)),
    ("name", jOr (getField m "name") (JVal.str "")),
    ("endpoint", jOr (getField m "endpoint") (JVal.str "")),
    ("contentType", jOr (getField m "contentType") (JVal.str "TEXT")),
    ("description", jOr (getField m "description") JVal.null),
    ("imageSource", decodeImageSource ctx m),
    ("lastModified", toUnixEpochSeconds ctx (getField m "lastModified"))]

/-- PageContent digest fields. -/
def parsePageContentDigest (ctx : Ctx) (m : JVal) (uid : String) : JVal :=
  JVal.obj [
    ("entityType", JVal.str "PageContent"),
    ("id", jOr (getField m "id") (JVal.str uid)),
    ("name", jOr (getField m "name") (JVal.str "")),
    ("endpoint", jOr (getField m "endpoint") (JVal.str "")),
    ("contentType", jOr (getField m "contentType") (JVal.str "PAGE")),
    ("description", jOr (getField m "description") JVal.null),
    ("imageSource", decodeImageSource ctx m),
    ("lastModified", toUnixEpochSeconds ctx (getField m "lastModified"))]

/-- ApiContent digest fields. -/
def parseApiContentDigest (ctx : Ctx) (m : JVal) (uid : String) : JVal :=
  JVal.obj [
    ("entityType", JVal.str "ApiContent"),
    ("id", jOr (getField m "id") (JVal.str uid)),
    ("name", jOr (getField m "name") (JVal.str "")),
    ("endpoint", jOr (getField m "endpoint") (JVal.str "")),
    ("contentType", jOr (getField m "contentType") (JVal.str "TEXT")),
    ("description", jOr (getField m "description") JVal.null),
    ("imageSource", decodeImageSource ctx m),
    ("lastModified", toUnixEpochSeconds ctx (getField m "lastModified"))]

/-- Program digest fields. -/
def parseProgramDigest (ctx : Ctx) (m : JVal) (uid : String) : JVal :=
  JVal.obj [
    ("entityType", JVal.str "Program"),
    ("id", jOr (getField m "id") (JVal.str uid)),
    ("name", jOr (getField m "name") (JVal.str "")),
    ("lang", jOr (getField m "lang")
      (JVal.obj [("code", JVal.str "en"), ("language", JVal.str "english")])),
    ("description", jOr (getField m "description") JVal.null),
    ("programMode", jOr (getField m "programMode") (JVal.str "Basic")),
    ("imageSource", decodeImageSource ctx m),
    ("lastModified", toUnixEpochSeconds ctx (getField m "lastModified"))]

/-- The `Array.prototype.join(", ")` coercion used for Broadcast headlines
(`null` joins as the empty string). -/
def joinHeadline : List JVal → String
  | [] => ""
  | [JVal.null] => ""
  | [x] => jToStr x
  | JVal.null :: rest => ", " ++ joinHeadline rest
  | x :: rest => jToStr x ++ ", " ++ joinHeadline rest

/-- Broadcast digest fields; `name` is the joined `headline` list, or
`"Untitled Broadcast"` when that list is empty or absent. -/
def parseBroadcastDigest (ctx : Ctx) (m : JVal) (uid : String) : JVal :=
  let broadcastName :=
    match getField m "headline" with
    | some (JVal.arr (h :: hs)) => joinHeadline (h :: hs)
    | _ => "Untitled Broadcast"
  let headline :=
    match getField m "headline" with
    | some (JVal.arr hs) => JVal.arr hs
    | _ => JVal.arr []
  JVal.obj [
    ("entityType", JVal.str "Broadcast"),
    ("id", jOr (getField m "id") (JVal.str uid)),
    ("programId", jOr (getField m "programId") JVal.null),
    ("soundSetId", jOr (getField m "soundSetId") JVal.null),
    ("name", JVal.str broadcastName),
    ("headline", headline),
    ("estimatedTime", jOr (getField m "estimatedTime") JVal.null),
    ("generatedTime", toUnixEpochSeconds ctx (getField m "generatedTime")),
    ("status", jOr (getField m "status") (JVal.str "composing")),
    ("lastModified", toUnixEpochSeconds ctx (getField m "lastModified")),
    ("imageSource", decodeImageSource ctx m)]

/-- Catalog digest fields. -/
def parseCatalogDigest (ctx : Ctx) (m : JVal) (uid : String) : JVal :=
  JVal.obj [
    ("entityType", JVal.str "Catalog"),
    ("id", jOr (getField m "id") (JVal.str uid)),
    ("name", jOr (getField m "name") (JVal.str "")),
    ("endpoint", jOr (getField m "endpoint") (JVal.str "")),
    ("description", jOr (getField m "description") JVal.null),
    ("imageSource", decodeImageSource ctx m),
    ("lastModified", toUnixEpochSeconds ctx (getField m "lastModified"))]

/-- Build the digest describing an entity in minimal form, dispatching on
the lower-cased top-level folder name; unknown folders produce a generic
digest. `uid` is the freshly generated UUID used when the record has no
truthy id. -/
def buildDigest (ctx : Ctx) (rootJson : JVal) (topFolderName : String) (uid : String) : JVal :=
  let m := jOrObj (getField rootJson "spec")
  match strToLower topFolderName with
  | "persons" => parsePersonDigest ctx m uid
  | "feeds" => parseFeedDigest ctx m uid
  | "soundsets" => parseSoundSetDigest ctx m uid
  | "generativeais" => parseGenerativeAiDigest ctx m uid
  | "pagecontents" => parsePageContentDigest ctx m uid
  | "apicontents" => parseApiContentDigest ctx m uid
  | "programs" => parseProgramDigest ctx m uid
  | "broadcasts" => parseBroadcastDigest ctx m uid
  | "catalogs" => parseCatalogDigest ctx m uid
  | _ =>
    JVal.obj [
      ("entityType", JVal.str "Unknown"),
      ("id", jOr (getField m "id") (JVal.str uid)),
      ("name", jOr (getField m "name") (JVal.str "")),
      ("lastModified", toUnixEpochSeconds ctx (getField m "lastModified")),
      ("imageSource", decodeImageSource ctx m)]

/-- Whether a digest build consumes one freshly generated UUID (exactly when
the record's `spec.id` is falsy, in every digest variant). -/
def digestFreshUsed (rootJson : JVal) : Bool :=
  !(jTruthyO (getField (jOrObj (getField rootJson "spec")) "id"))

/-- Digest build threading the supply of freshly generated UUIDs. -/
def buildDigestS (ctx : Ctx) (rootJson : JVal) (topFolderName : String)
    (ids : List String) : JVal × List String :=
  (buildDigest ctx rootJson topFolderName (ids.headD "generated-id"),
   if digestFreshUsed rootJson then ids.tail else ids)

/-- Image file name used when extracting an entity's embedded image, by
entity type. -/
def getEntityImageFilename (entityType : String) : String :=
  match strToLower entityType with
  | "persons" => "person.png"
  | "feeds" => "feed.png"
  | "soundsets" => "soundset.png"
  | "generativeais" => "generativeai.png"
  | "pagecontents" => "pagecontent.png"
  | "apicontents" => "apicontent.png"
  | "programs" => "program.png"
  | "broadcasts" => "broadcast.png"
  | "catalogs" => "catalog.png"
  | _ => "entity.png"

/- ### Embedded-media extraction and reference rewriting -/

/-- Output artifact written by the pipeline: a verbatim raw copy, a
serialized JSON document, or a decoded media payload (identified by its
base64 source text). -/
inductive OutFile where
  | raw : String → OutFile
  | json : JVal → OutFile
  | media : String → OutFile

/-- Result of one media extraction pass over a record: the rewritten record,
the media files written (path and content), the directories created, and
the remaining UUID supply. -/
structure ExtractResult where
  record : JVal
  written : List (String × OutFile)
  dirs : List String
  ids : List String

/-- Published-path computation used by media rewriting: the relative folder
holding an entity's assets. The file's base-name segment is appended
exactly when the source relative path ends in `.json` (case-insensitively)
and its base name is not the aggregated-bundle document `entity+deps…`;
otherwise the path's directory is used as-is. -/
def parentRelOf (rawRelativePath : String) : String :=
  let isAggregated :=
    strStartsWith (strToLower (posixBasename rawRelativePath)) "entity+deps"
  if strEndsWith (strToLower rawRelativePath) ".json" = true ∧ isAggregated = false then
    posixJoin (posixDirname rawRelativePath)
      (stripJsonExtension (posixBasename rawRelativePath))
  else posixDirname rawRelativePath

/-- Serialized remote image reference stored into
`spec.extraData.data.imageSourceJson` (`JSON.stringify` of the reference). -/
def imageSourceJsonString (url : String) : String :=
  "\x7b\"kind\":\"remote\",\"url\":\"" ++ url ++ "\"\x7d"

/-- Store a remote image reference for ApiContent-family entities inside
`spec.extraData.data.imageSourceJson`, materializing the nesting as the
code does when absent or falsy. -/
def setApiContentImageSource (spec : JVal) (absoluteUrl : String) : JVal :=
  let spec1 :=
    if jTruthyO (getField spec "extraData") then spec
    else setField spec "extraData" (JVal.obj [("data", JVal.obj [])])
  let ed := getFieldD spec1 "extraData"
  let ed1 :=
    if jTruthyO (getField ed "data") then ed
    else setField ed "data" (JVal.obj [])
  let d1 := setField (getFieldD ed1 "data") "imageSourceJson"
    (JVal.str (imageSourceJsonString absoluteUrl))
  setField spec1 "extraData" (setField ed1 "data" d1)

/-- The five SoundSet BGM category arrays examined for embedded audio. -/
def audioKeys : List String := ["openingBGM", "talkBGM", "newsBGM", "endingBGM", "jingleBGM"]

/-- Final audio file name: derived from the declared original file name
(its extension kept, which is empty when the name has none), or, when no
name was declared, the element id with the default `.m4a` extension. -/
def soundFinalFileName (fn : Option String) (elementId : String) : String :=
  match fn with
  | some f => sanitizeForFilesystem (basenameMinusExt f (extname f)) ++ extname f
  | none => sanitizeForFilesystem elementId ++ ".m4a"

/-- Element id chosen for a BGM element: its own `id` when truthy, else the
next freshly generated UUID (`element.id || generateUUID()`). -/
def chooseElementId (element : JVal) (ids : List String) : JVal × List String :=
  if jTruthyO (getField element "id") then (getFieldD element "id", ids)
  else (JVal.str (ids.headD "generated-id"), ids.tail)

/-- Resolution of the declared original file name: `some (some f)` for a
truthy string, `some none` when absent or falsy (use the default), and
`none` for a truthy non-string (whose use in a path or string primitive
throws inside the `try`). -/
def declaredSoundFileName : Option JVal → Option (Option String)
  | some v =>
    if jTruthy v then
      match v with
      | JVal.str f => some (some f)
      | _ => none
    else some none
  | none => some none

/-- Process one BGM array element: skip it unless it is truthy and carries a
truthy `embeddedSoundBase64`; otherwise delete the two embedded fields,
decode and write the audio under `sounds/<elementId>/<fileName>`, and set a
`remote` `soundSource`. A throw inside the original `try` (non-string
payload, id, or file name reaching a path or string primitive) leaves the
element with only the deletions applied and writes nothing. -/
def processElement (ctx : Ctx) (parentRel soundsFolder : String)
    (element : JVal) (ids : List String) :
    JVal × List (String × OutFile) × List String × List String :=
  if !(jTruthy element && jTruthyO (getField element "embeddedSoundBase64")) then
    (element, [], [], ids)
  else
    let fnameV := getField element "embeddedSoundFileName"
    let el1 := delField (delField element "embeddedSoundBase64") "embeddedSoundFileName"
    match getFieldD element "embeddedSoundBase64" with
    | JVal.str b =>
      let (idv, ids') := chooseElementId element ids
      match idv with
      | JVal.str elementId =>
        match declaredSoundFileName fnameV with
        | some fn =>
          let finalFileName := soundFinalFileName fn elementId
          let elementSubFolder := posixJoin soundsFolder elementId
          let el2 := setField el1 "soundSource"
            (JVal.obj [("kind", JVal.str "remote"),
              ("url", JVal.str (ctx.baseUrl ++ "/" ++
                posixJoin4 (sanitizeForFilesystem parentRel) "sounds" elementId finalFileName))])
          (el2, [(posixJoin elementSubFolder finalFileName, OutFile.media b)],
           [elementSubFolder], ids')
        | none => (el1, [], [], ids')
      | _ => (el1, [], [], ids')
    | _ => (el1, [], [], ids)

/-- Process every element of one BGM array in order, threading the UUID
supply and accumulating writes and created directories. -/
def processElements (ctx : Ctx) (parentRel soundsFolder : String) :
    List JVal → List String →
    List JVal × List (String × OutFile) × List String × List String
  | [], ids => ([], [], [], ids)
  | e :: rest, ids =>
    let (e', w, d, ids1) := processElement ctx parentRel soundsFolder e ids
    let (es', ws, ds, ids2) := processElements ctx parentRel soundsFolder rest ids1
    (e' :: es', w ++ ws, d ++ ds, ids2)

/-- Process the BGM category arrays of a SoundSet spec in order, skipping
keys whose value is not an array. -/
def processAudioKeys (ctx : Ctx) (parentRel soundsFolder : String) :
    List String → JVal → List String →
    JVal × List (String × OutFile) × List String × List String
  | [], spec, ids => (spec, [], [], ids)
  | k :: ks, spec, ids =>
    match getField spec k with
    | some (JVal.arr els) =>
      let (els', w, d, ids1) := processElements ctx parentRel soundsFolder els ids
      let (spec2, ws, ds, ids2) :=
        processAudioKeys ctx parentRel soundsFolder ks (setField spec k (JVal.arr els')) ids1
      (spec2, w ++ ws, d ++ ds, ids2)
    | _ => processAudioKeys ctx parentRel soundsFolder ks spec ids

/-- Write a remote image reference into a spec: directly into
`spec.imageSource` for most kinds, or into the nested serialized
`extraData` form (removing the direct field) for the ApiContent family. -/
def remoteImageInto (isApiContentFamily : Bool) (url : String) (s : JVal) : JVal :=
  if isApiContentFamily then
    delField (setApiContentImageSource s url) "imageSource"
  else
    setField s "imageSource"
      (JVal.obj [("kind", JVal.str "remote"), ("url", JVal.str url)])

/-- Image part of the media rewrite (steps 1 and 2): decode and write an
embedded base64 image and install a remote reference, or rewrite a
`local`/`generated` reference to remote without copying anything. -/
def rewriteImageStep (ctx : Ctx) (spec : JVal)
    (entitySubfolder imageFileName parentRel : String)
    (isApiContentFamily : Bool) : JVal × List (String × OutFile) :=
  if jTruthyO (getField spec "embeddedImageBase64") then
    match getFieldD spec "embeddedImageBase64" with
    | JVal.str b =>
      let absoluteImageUrl := ctx.baseUrl ++ "/" ++
        posixJoin (sanitizeForFilesystem parentRel) imageFileName
      (remoteImageInto isApiContentFamily absoluteImageUrl
         (delField spec "embeddedImageBase64"),
       [(posixJoin entitySubfolder imageFileName, OutFile.media b)])
    | _ => (spec, [])
  else
    match getField spec "imageSource" with
    | some iv =>
      let kindLG :=
        match getField iv "kind" with
        | some (JVal.str k) => k == "local" || k == "generated"
        | _ => false
      if jTruthy iv && kindLG then
        let localRel :=
          match jOr (getField iv "url") (JVal.str imageFileName) with
          | JVal.str s => s
          | v => jToStr v
        let absoluteImageUrl := ctx.baseUrl ++ "/" ++
          posixJoin (sanitizeForFilesystem parentRel) localRel
        (remoteImageInto isApiContentFamily absoluteImageUrl spec, [])
      else (spec, [])
    | none => (spec, [])

/-- Audio part of the media rewrite (step 3), run only for the SoundSets
entity type: process the five BGM category arrays, creating the `sounds`
folder. -/
def rewriteSoundStep (ctx : Ctx) (entityType parentRel entitySubfolder : String)
    (spec1 : JVal) (ids : List String) :
    JVal × List (String × OutFile) × List String × List String :=
  if strToLower entityType = "soundsets" then
    let soundsFolder := posixJoin entitySubfolder "sounds"
    let r := processAudioKeys ctx parentRel soundsFolder audioKeys spec1 ids
    (r.1, r.2.1, soundsFolder :: r.2.2.1, r.2.2.2)
  else (spec1, [], [], ids)

/-- Extract embedded media from an entity document and rewrite its media
references to remote URLs: an embedded base64 image is decoded, written to
`entitySubfolder/imageFileName` and replaced by a remote reference (stored
in `extraData` for the ApiContent family); a `local`/`generated` image
reference is rewritten to remote without copying anything; for SoundSets,
each BGM array element with embedded audio is extracted. Finally the spec
(`json.spec || {}`) is assigned back onto the record. -/
def extractEmbeddedMediaAndRewrite (ctx : Ctx) (json : JVal)
    (entitySubfolder imageFileName rawRelativePath : String)
    (ids : List String) : ExtractResult :=
  let spec := jOrObj (getField json "spec")
  let entityType := getTopLevelFolder rawRelativePath
  let parentRel := parentRelOf rawRelativePath
  let isApiContentFamily :=
    ["apicontents", "generativeais", "pagecontents", "catalogs"].contains
      (strToLower entityType)
  let s1 := rewriteImageStep ctx spec entitySubfolder imageFileName parentRel
    isApiContentFamily
  let s2 := rewriteSoundStep ctx entityType parentRel entitySubfolder s1.1 ids
  { record := setField json "spec" s2.1,
    written := s1.2 ++ s2.2.1,
    dirs := s2.2.2.1,
    ids := s2.2.2.2 }

/- ### Dependency aggregation for Program packages -/

mutual
/-- Structural size of a JSON value, used as a recursion bound for the
segment-tree walk (nesting depth never exceeds it). -/
def jSize : JVal → Nat
  | JVal.arr xs => 1 + jSizeArr xs
  | JVal.obj kvs => 1 + jSizeObj kvs
  | _ => 1
def jSizeArr : List JVal → Nat
  | [] => 0
  | x :: rest => jSize x + jSizeArr rest
def jSizeObj : List (String × JVal) → Nat
  | [] => 0
  | (_, v) :: rest => jSize v + jSizeObj rest
end

/-- Candidate-id sets collected from the `programSegments` tree, one per
referenced kind, in first-insertion order (modelling JavaScript `Set`s). -/
structure SegSets where
  feeds : List JVal
  apis : List JVal
  pages : List JVal
  ais : List JVal

/-- Add a value to a collected set unless an equal value is already present
(`Set.prototype.add`). -/
def insertJ (l : List JVal) (x : JVal) : List JVal :=
  if l.any (fun a => jEqB a x) then l else l ++ [x]

/-- Record a segment's `generativeAiId` into its set when truthy. -/
def addAiId (s : JVal) (acc : SegSets) : SegSets :=
  if jTruthyO (getField s "generativeAiId") then
    { acc with ais := insertJ acc.ais (getFieldD s "generativeAiId") }
  else acc

/-- Record a source's `feedId` into its set when truthy. -/
def addFeedId (src : JVal) (acc : SegSets) : SegSets :=
  if jTruthyO (getField src "feedId") then
    { acc with feeds := insertJ acc.feeds (getFieldD src "feedId") }
  else acc

/-- Record a source's `apiContentId` into its set when truthy. -/
def addApiId (src : JVal) (acc : SegSets) : SegSets :=
  if jTruthyO (getField src "apiContentId") then
    { acc with apis := insertJ acc.apis (getFieldD src "apiContentId") }
  else acc

/-- Record a source's `pageContentId` into its set when truthy. -/
def addPageId (src : JVal) (acc : SegSets) : SegSets :=
  if jTruthyO (getField src "pageContentId") then
    { acc with pages := insertJ acc.pages (getFieldD src "pageContentId") }
  else acc

/-- Record one segment's direct references (its `generativeAiId` and the
three id fields of its truthy `source`) into the sets. -/
def segStep (s : JVal) (acc : SegSets) : SegSets :=
  let acc1 := addAiId s acc
  if jTruthyO (getField s "source") then
    addPageId (getFieldD s "source")
      (addApiId (getFieldD s "source") (addFeedId (getFieldD s "source") acc1))
  else acc1

/-- Walk the segment tree collecting `generativeAiId`, `source.feedId`,
`source.apiContentId` and `source.pageContentId` into the four sets,
recursing depth-first through `subSegments` lists. The fuel decreases at
every step and so bounds the length of any chain of nested calls; callers
pass the spec's structural size, which always dominates that length, so
the bound is never hit on real input. -/
def walkSegments : Nat → List JVal → SegSets → SegSets
  | _, [], acc => acc
  | 0, _ :: _, acc => acc
  | fuel + 1, s :: rest, acc =>
    let acc2 := segStep s acc
    let acc3 :=
      match getField s "subSegments" with
      | some (JVal.arr subs) => walkSegments fuel subs acc2
      | _ => acc2
    walkSegments fuel rest acc3

/-- Whether a resolved record is a built-in: its `spec.type` is exactly the
string `"predefined"` or `"preInstalled"`. -/
def isBuiltinType (obj0 : JVal) : Bool :=
  match getField (jOrObj (getField obj0 "spec")) "type" with
  | some (JVal.str t) => t == "predefined" || t == "preInstalled"
  | _ => false

/-- Resolve one candidate reference: look up `<relPath>/entity.json` under
the package root; a missing file, a failed or falsy parse, or a record
whose `spec.type` is exactly `"predefined"` or `"preInstalled"` gives
`none`. -/
def pick (ctx : Ctx) (pkgRoot : JTree) (relPath : String) : Option JVal :=
  match treeGetFile pkgRoot (strSplitSlash relPath ++ ["entity.json"]) with
  | none => none
  | some c =>
    match parseContent ctx c with
    | none => none
    | some obj0 => if isBuiltinType obj0 then none else some obj0

/-- Parse the `entity.json` of one `soundElement/<elementId>` entry; only
directory entries count. -/
def gatherOne (ctx : Ctx) : String × JTree → Option JVal
  | (_, JTree.dir subEs) => parseContentO ctx (entryFile subEs "entity.json")
  | (_, JTree.file _) => none

/-- Read every sound-element record under
`soundset/<soundSetId>/soundElement/*/entity.json`, in listing order, with
no filtering beyond a successful truthy parse. -/
def gatherSoundElements (ctx : Ctx) (pkgRoot : JTree) (soundSetId : String) : List JVal :=
  match treeGet pkgRoot ["soundset", soundSetId, "soundElement"] with
  | some (JTree.dir dirs) => dirs.filterMap (gatherOne ctx)
  | _ => []

/-- Build the `{dependencies: …}` blob for `entity+deps.json`: collect
candidate ids from the top-level list fields, the singular `soundSetId` and
the four model-id fields, and the segment tree; resolve each via `pick`
against the package's on-disk layout; group into seven named lists. -/
def buildAggregatedBlob (ctx : Ctx) (programSpec : JVal) (pkgRoot : JTree) : JVal :=
  let feedIds := jArrField programSpec "feedIds"
  let apiContentIds := jArrField programSpec "apiContentIds"
  let pageContentIds := jArrField programSpec "pageContentIds"
  let seg := walkSegments (jSize programSpec) (jArrField programSpec "programSegments")
    { feeds := [], apis := [], pages := [], ais := [] }
  let personalityIds := jArrField programSpec "personalityIds"
  let persons := personalityIds.filterMap (fun p => pick ctx pkgRoot ("person/" ++ jToStr p))
  let soundPair :=
    if jTruthyO (getField programSpec "soundSetId") then
      let sId := jToStr (getFieldD programSpec "soundSetId")
      match pick ctx pkgRoot ("soundset/" ++ sId) with
      | some sObj => ([sObj], gatherSoundElements ctx pkgRoot sId)
      | none => (([] : List JVal), ([] : List JVal))
    else ([], [])
  let allGenAiIds :=
    ([getFieldD programSpec "generatorModelId",
      getFieldD programSpec "summarizerModelId",
      getFieldD programSpec "translatorModelId",
      getFieldD programSpec "coverImageModelId"] ++ seg.ais).filter jTruthy
  let generativeAis :=
    allGenAiIds.filterMap (fun g => pick ctx pkgRoot ("generativeAi/" ++ jToStr g))
  let feeds := (feedIds ++ seg.feeds).filterMap (fun f => pick ctx pkgRoot ("feed/" ++ jToStr f))
  let apiContents :=
    (apiContentIds ++ seg.apis).filterMap (fun a => pick ctx pkgRoot ("apiContent/" ++ jToStr a))
  let pageContents :=
    (pageContentIds ++ seg.pages).filterMap (fun p => pick ctx pkgRoot ("pageContent/" ++ jToStr p))
  JVal.obj [("dependencies", JVal.obj [
    ("persons", JVal.arr persons),
    ("soundSets", JVal.arr soundPair.1),
    ("soundElements", JVal.arr soundPair.2),
    ("feeds", JVal.arr feeds),
    ("apiContents", JVal.arr apiContents),
    ("pageContents", JVal.arr pageContents),
    ("generativeAis", JVal.arr generativeAis)])]

/- ### Package unpacking (zip) and the rewrite pass over unpacked trees -/

mutual
/-- Depth-first search for the first directory containing an `entity.json`
entry, in the traversal order of the original explicit-stack walk: a
directory itself first, then its subdirectories from last to first. -/
def walkForEntityJson : JTree → List String → Option (List String)
  | JTree.dir es, p =>
    if entryExists es "entity.json" then some p else walkForEntityJsonRev es p
  | JTree.file _, _ => none
/-- Search the later entries first (the stack pops in reverse listing
order), descending only into directories. -/
def walkForEntityJsonRev : List (String × JTree) → List String → Option (List String)
  | [], _ => none
  | (n, t) :: rest, p =>
    match walkForEntityJsonRev rest p with
    | some q => some q
    | none =>
      match t with
      | JTree.dir _ => walkForEntityJson t (p ++ [n])
      | JTree.file _ => none
end

/-- Store a child entry, replacing the first binding of the name in place or
appending. -/
def entryStore : List (String × JTree) → String → JTree → List (String × JTree)
  | [], n, t => [(n, t)]
  | (n', t') :: rest, n, t =>
    if n' = n then (n, t) :: rest else (n', t') :: entryStore rest n t

/-- Write a file entry directly under a directory tree. -/
def treeSetTop (t : JTree) (n : String) (c : JContent) : JTree :=
  match t with
  | JTree.dir es => JTree.dir (entryStore es n (JTree.file c))
  | f => f

mutual
/-- Remove the node at a non-empty path (the effect of `fs.renameSync`
moving that subtree away); an empty path leaves the tree unchanged. -/
def treeRemove : JTree → List String → JTree
  | t, [] => t
  | JTree.dir es, n :: rest => JTree.dir (entriesRemove es n rest)
  | JTree.file c, _ :: _ => JTree.file c
/-- Entry-list worker for `treeRemove`. -/
def entriesRemove : List (String × JTree) → String → List String → List (String × JTree)
  | [], _, _ => []
  | (n', t) :: es, n, rest =>
    if n' = n then
      match rest with
      | [] => entriesRemove es n rest
      | _ :: _ => (n', treeRemove t rest) :: entriesRemove es n rest
    else (n', t) :: entriesRemove es n rest
end

mutual
/-- Dump a tree as a flat list of written output files. -/
def flattenTree : JTree → String → List (String × OutFile)
  | JTree.file (JContent.rawc s), p => [(p, OutFile.raw s)]
  | JTree.file (JContent.jsonc v), p => [(p, OutFile.json v)]
  | JTree.dir es, p => flattenEntries es p
/-- Entry-list worker for `flattenTree`. -/
def flattenEntries : List (String × JTree) → String → List (String × OutFile)
  | [], _ => []
  | (n, t) :: rest, p => flattenTree t (posixJoin p n) ++ flattenEntries rest p
end

/-- Raw bytes of a file content (source files and zip payloads are raw). -/
def contentBytes : JContent → String
  | JContent.rawc s => s
  | JContent.jsonc _ => ""

/-- Top folder governing image file names inside the rewrite pass:
the first component of the web-relative path, or `"Programs"`. -/
def topFolderOf (webRel : String) : String :=
  let h := (strSplitSlash webRel).headD ""
  if h = "" then "Programs" else h

/-- Rewrite one dependency list of the aggregated blob: each record is
wrapped as `{spec}` and passed through media extraction; itself a falsy
list element stays untouched (the wrapper's fresh `{}` is discarded). -/
def rewriteDepList (ctx : Ctx) (folderAbs webRel imgFile : String) :
    List JVal → List String →
    List JVal × List (String × OutFile) × List String
  | [], ids => ([], [], ids)
  | spec :: rest, ids =>
    let res := extractEmbeddedMediaAndRewrite ctx (JVal.obj [("spec", spec)]) folderAbs
      imgFile (posixJoin webRel "entity+deps.json") ids
    let spec' := if jTruthy spec then getFieldD res.record "spec" else spec
    let (rest', w, ids') := rewriteDepList ctx folderAbs webRel imgFile rest res.ids
    (spec' :: rest', res.written ++ w, ids')

/-- Rewrite every array-valued group of the blob's `dependencies` object,
choosing the per-kind image file name from the group key. -/
def rewriteDeps (ctx : Ctx) (folderAbs webRel : String) :
    List (String × JVal) → List String →
    List (String × JVal) × List (String × OutFile) × List String
  | [], ids => ([], [], ids)
  | (depKey, v) :: rest, ids =>
    match v with
    | JVal.arr list =>
      let (list', w, ids1) :=
        rewriteDepList ctx folderAbs webRel (getEntityImageFilename depKey) list ids
      let (rest', ws, ids2) := rewriteDeps ctx folderAbs webRel rest ids1
      ((depKey, JVal.arr list') :: rest', w ++ ws, ids2)
    | _ =>
      let (rest', ws, ids2) := rewriteDeps ctx folderAbs webRel rest ids
      ((depKey, v) :: rest', ws, ids2)

mutual
/-- Walk an unpacked folder tree rewriting every `entity.json` and
`entity+deps.json` so that embedded/local media references become remote
URLs; media decoded along the way is returned as extra writes. -/
def rewriteEntityFolder (ctx : Ctx) : JTree → String → String → List String →
    JTree × List (String × OutFile) × List String
  | JTree.dir es, folderAbs, webRel, ids =>
    let r := rewriteEntries ctx es folderAbs webRel ids
    (JTree.dir r.1, r.2.1, r.2.2)
  | JTree.file c, _, _, ids => (JTree.file c, [], ids)
/-- Entry-list worker for `rewriteEntityFolder`. -/
def rewriteEntries (ctx : Ctx) : List (String × JTree) → String → String → List String →
    List (String × JTree) × List (String × OutFile) × List String
  | [], _, _, ids => ([], [], ids)
  | (n, t) :: rest, folderAbs, webRel, ids =>
    match t with
    | JTree.dir _ =>
      let r := rewriteEntityFolder ctx t (posixJoin folderAbs n) (posixJoin webRel n) ids
      let r2 := rewriteEntries ctx rest folderAbs webRel r.2.2
      ((n, r.1) :: r2.1, r.2.1 ++ r2.2.1, r2.2.2)
    | JTree.file c =>
      if n = "entity.json" then
        match parseContent ctx c with
        | some j =>
          let res := extractEmbeddedMediaAndRewrite ctx j folderAbs
            (getEntityImageFilename (topFolderOf webRel)) (posixJoin webRel "entity.json") ids
          let r2 := rewriteEntries ctx rest folderAbs webRel res.ids
          ((n, JTree.file (JContent.jsonc res.record)) :: r2.1,
           res.written ++ r2.2.1, r2.2.2)
        | none =>
          let r2 := rewriteEntries ctx rest folderAbs webRel ids
          ((n, t) :: r2.1, r2.2.1, r2.2.2)
      else if n = "entity+deps.json" then
        match parseContent ctx c with
        | some blob =>
          let res := extractEmbeddedMediaAndRewrite ctx blob folderAbs
            (getEntityImageFilename (topFolderOf webRel)) (posixJoin webRel "entity+deps.json") ids
          let stepB :=
            match getField res.record "dependencies" with
            | some (JVal.obj depEntries) =>
              let rd := rewriteDeps ctx folderAbs webRel depEntries res.ids
              (setField res.record "dependencies" (JVal.obj rd.1), rd.2.1, rd.2.2)
            | _ => (res.record, [], res.ids)
          let r2 := rewriteEntries ctx rest folderAbs webRel stepB.2.2
          ((n, JTree.file (JContent.jsonc stepB.1)) :: r2.1,
           res.written ++ stepB.2.1 ++ r2.2.1, r2.2.2)
        | none =>
          let r2 := rewriteEntries ctx rest folderAbs webRel ids
          ((n, t) :: r2.1, r2.2.1, r2.2.2)
      else
        let r2 := rewriteEntries ctx rest folderAbs webRel ids
        ((n, t) :: r2.1, r2.2.1, r2.2.2)
end

/-- Result of unpacking one Program package zip: the index item returned to
the caller (`none` on failure), the output files produced under the target
directory, what remains of the ephemeral scratch directory when the call
returns (`none` when that directory no longer exists), and the remaining
UUID supply. -/
structure ZipResult where
  item : Option JVal
  writes : List (String × OutFile)
  tmpRoot : Option JTree
  ids : List String

/-- Unpack a zipped Program package: extract to a scratch directory, locate
the first directory holding an `entity.json`, parse it, build a Program
digest, move the found subtree to
`parentTargetDir/<sanitized digest name or zip base name>`, write the
aggregated `entity+deps.json` next to it, run the media rewrite pass over
the relocated subtree, and return an index item. On the two failure paths
the scratch directory is removed; on success only the found subtree is
renamed away, so the scratch root survives unless the subtree was the root
itself. -/
def processProgramPackageZip (ctx : Ctx) (zipBytes zipBaseName parentTargetDir
    rawRelativePath : String) (ids : List String) : ZipResult :=
  let tmp := ctx.unzip zipBytes
  match walkForEntityJson tmp [] with
  | none => { item := none, writes := [], tmpRoot := none, ids := ids }
  | some entityPath =>
    match parseContentO ctx (treeGetFile tmp (entityPath ++ ["entity.json"])) with
    | none => { item := none, writes := [], tmpRoot := none, ids := ids }
    | some programJson =>
      let (digest, ids1) :=
        (parseProgramDigest ctx (jOrObj (getField programJson "spec")) (ids.headD "generated-id"),
         if digestFreshUsed programJson then ids.tail else ids)
      let fallbackName := stripJsonExtension zipBaseName
      let nameStr :=
        match jOr (getField digest "name") (JVal.str fallbackName) with
        | JVal.str s => s
        | v => jToStr v
      let finalFolderName := sanitizeForFilesystem nameStr
      let destFolder := posixJoin parentTargetDir finalFolderName
      let destTree0 := (treeGet tmp entityPath).getD (JTree.dir [])
      let tmpLeft := if entityPath = [] then none else some (treeRemove tmp entityPath)
      let destTree1 :=
        match parseContentO ctx (treeGetFile destTree0 ["entity.json"]) with
        | some progJson =>
          let blob := buildAggregatedBlob ctx (getFieldD progJson "spec") destTree0
          treeSetTop destTree0 "entity+deps.json" (JContent.jsonc (objMerge progJson blob))
        | none => destTree0
      let webRel := posixJoin (posixDirname (stripZipExtension rawRelativePath)) finalFolderName
      let r := rewriteEntityFolder ctx destTree1 destFolder webRel ids1
      let parentDirRel := stripZipExtension (posixDirname rawRelativePath)
      let indexPath :=
        if parentDirRel = "." then finalFolderName
        else posixJoin parentDirRel finalFolderName
      { item := some (JVal.obj [
          ("name", jOr (getField digest "name") (JVal.str fallbackName)),
          ("path", JVal.str indexPath),
          ("isDirectory", JVal.bool false),
          ("digest", digest)]),
        writes := flattenTree r.1 destFolder ++ r.2.1,
        tmpRoot := tmpLeft,
        ids := r.2.2 }

/- ### Standalone entity processing and the recursive tree walker -/

/-- Process a single `.json` source file: on a failed (or falsy) parse, copy
the raw file as-is to `parentTargetDir/<file name>` and return no index
item; otherwise build the digest, extract media into a subfolder named
after the sanitized base name, rebuild the digest, write the final
`entity.json`, and return the entity's index item. -/
def processEntityJson (ctx : Ctx) (content : JContent) (fileName parentTargetDir
    rawRelativePath : String) (ids : List String) :
    Option JVal × List (String × OutFile) × List String :=
  match parseContent ctx content with
  | none =>
    (none, [(posixJoin parentTargetDir fileName, OutFile.raw (contentBytes content))], ids)
  | some originalJson =>
    let entityType := getTopLevelFolder rawRelativePath
    let d1 := buildDigestS ctx originalJson entityType ids
    let baseName := stripJsonExtension fileName
    let entitySubfolder := posixJoin parentTargetDir (sanitizeForFilesystem baseName)
    let res := extractEmbeddedMediaAndRewrite ctx originalJson entitySubfolder
      (getEntityImageFilename entityType) rawRelativePath d1.2
    let d2 := buildDigestS ctx res.record entityType res.ids
    let digest :=
      if jTruthyO (getField d2.1 "name") then d2.1
      else setField d2.1 "name" (JVal.str baseName)
    let parentDir := posixDirname rawRelativePath
    let finalPath :=
      if parentDir = "." ∨ parentDir = "" then sanitizeForFilesystem baseName
      else posixJoin parentDir (sanitizeForFilesystem baseName)
    (some (JVal.obj [
        ("name", getFieldD digest "name"),
        ("path", JVal.str finalPath),
        ("isDirectory", JVal.bool false),
        ("digest", digest)]),
     res.written ++ [(posixJoin entitySubfolder "entity.json", OutFile.json res.record)],
     d2.2)

/-- Process a directory containing an `entity.json` as one folder entity:
parse it (skipping the folder entirely on failure), extract media into
the sanitized-folder-name subfolder, rebuild the digest with the folder
name as the display-name fallback, write the final `entity.json`, and
return the entity's index item. -/
def processEntityFolder (ctx : Ctx) (folderTree : JTree) (parentTargetDir
    rawRelativePath folderName : String) (ids : List String) :
    Option JVal × List (String × OutFile) × List String :=
  let entityContent :=
    match folderTree with
    | JTree.dir es => entryFile es "entity.json"
    | JTree.file _ => none
  match parseContentO ctx entityContent with
  | none => (none, [], ids)
  | some originalJson =>
    let entityType := getTopLevelFolder rawRelativePath
    let d1 := buildDigestS ctx originalJson entityType ids
    let displayName := jOr (getField d1.1 "name") (JVal.str folderName)
    let entitySubfolder := posixJoin parentTargetDir (sanitizeForFilesystem folderName)
    let res := extractEmbeddedMediaAndRewrite ctx originalJson entitySubfolder
      (getEntityImageFilename entityType) rawRelativePath d1.2
    let d2 := buildDigestS ctx res.record entityType res.ids
    let digest :=
      if jTruthyO (getField d2.1 "name") then d2.1
      else setField d2.1 "name" displayName
    let parentDir := posixDirname rawRelativePath
    let subfolderName := sanitizeForFilesystem folderName
    let finalPath :=
      if parentDir = "." ∨ parentDir = "" then subfolderName
      else posixJoin parentDir subfolderName
    (some (JVal.obj [
        ("name", getFieldD digest "name"),
        ("path", JVal.str finalPath),
        ("isDirectory", JVal.bool false),
        ("digest", digest)]),
     res.written ++ [(posixJoin entitySubfolder "entity.json", OutFile.json res.record)],
     d2.2)

/-- Prepend an index item when the handler returned one. -/
def consItem (o : Option JVal) (items : List JVal) : List JVal :=
  match o with
  | some it => it :: items
  | none => items

mutual
/-- Recursively traverse a source directory, producing every output file
write (including this directory's final `index.json` manifest, written
last) and threading the UUID supply. -/
def recurseAndBuildAllIndexes (ctx : Ctx) : JTree → String → String → List String →
    List (String × OutFile) × List String
  | JTree.dir es, targetDir, webRelativePath, ids =>
    let dirMetadata := jOr (parseContentO ctx (entryFile es "repo-metadata.json")) (JVal.obj [])
    let r := walkEntries ctx es targetDir webRelativePath ids
    (r.2.1 ++ [(posixJoin targetDir "index.json",
       OutFile.json (JVal.obj [("info", dirMetadata), ("items", JVal.arr r.1)]))],
     r.2.2)
  | JTree.file _, _, _, ids => ([], ids)
/-- Process the entries of one source directory in listing order, skipping
hidden files, `index.json` and `repo-metadata.json`, dispatching each to
folder-entity handling, plain recursion, Program-package unpacking,
standalone-entity processing, or opaque copy-through; returns the index
items collected for the enclosing manifest, the output writes, and the
remaining UUID supply. -/
def walkEntries (ctx : Ctx) : List (String × JTree) → String → String → List String →
    List JVal × List (String × OutFile) × List String
  | [], _, _, ids => ([], [], ids)
  | (name, sub) :: rest, targetDir, webRelativePath, ids =>
    if strStartsWith name "." || name == "index.json" || name == "repo-metadata.json" then
      walkEntries ctx rest targetDir webRelativePath ids
    else
      let nextRelativePath :=
        if webRelativePath = "" then name else posixJoin webRelativePath name
      match sub with
      | JTree.dir subEs =>
        if entryExists subEs "entity.json" then
          let p := processEntityFolder ctx sub targetDir nextRelativePath name ids
          let r2 := walkEntries ctx rest targetDir webRelativePath p.2.2
          (consItem p.1 r2.1, p.2.1 ++ r2.2.1, r2.2.2)
        else
          let subTargetDir := posixJoin targetDir (sanitizeForFilesystem name)
          let r := recurseAndBuildAllIndexes ctx sub subTargetDir nextRelativePath ids
          let item := JVal.obj [
            ("name", JVal.str name),
            ("path", JVal.str (sanitizeForFilesystem name)),
            ("isDirectory", JVal.bool true)]
          let r2 := walkEntries ctx rest targetDir webRelativePath r.2
          (item :: r2.1, r.1 ++ r2.2.1, r2.2.2)
      | JTree.file c =>
        let ext := strToLower (extname name)
        if ext = ".zip" ∧ strToLower (getTopLevelFolder nextRelativePath) = "programs" then
          let z := processProgramPackageZip ctx (contentBytes c) name targetDir
            nextRelativePath ids
          let r2 := walkEntries ctx rest targetDir webRelativePath z.ids
          (consItem z.item r2.1, z.writes ++ r2.2.1, r2.2.2)
        else if ext = ".json" then
          let p := processEntityJson ctx c name targetDir nextRelativePath ids
          let r2 := walkEntries ctx rest targetDir webRelativePath p.2.2
          (consItem p.1 r2.1, p.2.1 ++ r2.2.1, r2.2.2)
        else
          let childTargetPath := posixJoin targetDir (sanitizeForFilesystem name)
          let downloadURL := ctx.baseUrl ++ "/" ++ sanitizeForFilesystem nextRelativePath
          let item := JVal.obj [
            ("name", JVal.str name),
            ("path", JVal.str (sanitizeForFilesystem name)),
            ("isDirectory", JVal.bool false),
            ("downloadURL", JVal.str downloadURL)]
          let r2 := walkEntries ctx rest targetDir webRelativePath ids
          (item :: r2.1, (childTargetPath, OutFile.raw (contentBytes c)) :: r2.2.1, r2.2.2)
end

/- ### Concrete inputs for witness and counterexample runs -/

/-- Table-driven stand-in for `JSON.parse` used by the concrete runs below:
`"A"` is a Feed spec without id, `"5"` is the JSON document `5`, `"prog"`
is a Program entity document; everything else fails to parse. -/
def demoParse : String → Option JVal
  | "A" => some (JVal.obj [("spec", JVal.obj [("name", JVal.str "A")])])
  | "5" => some (JVal.num 5)
  | "prog" => some (JVal.obj [("spec", JVal.obj [("id", JVal.str "p1"), ("name", JVal.str "Show")])])
  | _ => none

/-- Concrete run context with base URL `http://x`. -/
def demoCtx : Ctx :=
  { baseUrl := "http://x", now := 7, dateParse := fun _ => none,
    parse := demoParse, unzip := fun _ => JTree.dir [] }

/-- Source tree holding a single malformed `Feeds/Broken.json`. -/
def brokenTree : JTree :=
  JTree.dir [("Feeds", JTree.dir [("Broken.json", JTree.file (JContent.rawc "oops"))])]

/-- SoundSet record whose one `openingBGM` element has an embedded audio
payload and no id. -/
def soundRec : JVal :=
  JVal.obj [("spec", JVal.obj [("openingBGM",
    JVal.arr [JVal.obj [("embeddedSoundBase64", JVal.str "QUJD")]])])]

/-- Resolved user-defined feed record. -/
def feedRec : JVal := JVal.obj [("spec", JVal.obj [("type", JVal.str "userdefined")])]

/-- Package tree with one user-defined feed at `feed/f1/entity.json`. -/
def pkgUser : JTree :=
  JTree.dir [("feed", JTree.dir [("f1", JTree.dir [("entity.json",
    JTree.file (JContent.jsonc feedRec))])])]

/-- Predefined (built-in) feed record. -/
def feedPre : JVal := JVal.obj [("spec", JVal.obj [("type", JVal.str "predefined")])]

/-- Package tree with one predefined feed at `feed/f1/entity.json`. -/
def pkgPre : JTree :=
  JTree.dir [("feed", JTree.dir [("f1", JTree.dir [("entity.json",
    JTree.file (JContent.jsonc feedPre))])])]

/-- Sound-element record marked `preInstalled`. -/
def sePre : JVal := JVal.obj [("spec", JVal.obj [("type", JVal.str "preInstalled")])]

/-- Package tree with a soundset `s1` whose `soundElement/e1` record is
marked `preInstalled`. -/
def pkgSE : JTree :=
  JTree.dir [("soundset", JTree.dir [("s1", JTree.dir [
    ("entity.json", JTree.file (JContent.jsonc (JVal.obj [("spec", JVal.obj [])]))),
    ("soundElement", JTree.dir [("e1", JTree.dir [("entity.json",
      JTree.file (JContent.jsonc sePre))])])])])]

/-- Program spec listing the same feed id twice in its top-level `feedIds`. -/
def specDupFeeds : JVal := JVal.obj [("feedIds", JVal.arr [JVal.str "f1", JVal.str "f1"])]

/-- Extracted zip tree whose entity directory is a proper subdirectory of
the extraction root. -/
def zipTreeNested : JTree :=
  JTree.dir [("MyShow", JTree.dir [("entity.json", JTree.file (JContent.rawc "prog"))])]

/-- Context whose zip extractor yields the nested-entity tree. -/
def zipCtxNested : Ctx :=
  { baseUrl := "http://x", now := 7, dateParse := fun _ => none,
    parse := demoParse, unzip := fun _ => zipTreeNested }

/-- Context whose zip extractor yields a tree with no entity document. -/
def zipCtxNoEntity : Ctx :=
  { baseUrl := "http://x", now := 7, dateParse := fun _ => none,
    parse := demoParse, unzip := fun _ => JTree.dir [("stuff", JTree.dir [])] }

/-- Context whose zip extractor yields a tree whose entity document does
not parse. -/
def zipCtxBadEntity : Ctx :=
  { baseUrl := "http://x", now := 7, dateParse := fun _ => none,
    parse := demoParse, unzip := fun _ =>
      JTree.dir [("MyShow", JTree.dir [("entity.json", JTree.file (JContent.rawc "oops"))])] }

/- ### Basic object-manipulation lemmas -/

theorem jLookup_jStore_self {kvs : List (String × JVal)} {k : String} {v : JVal}
    (h : jLookup kvs k = some v) : jStore kvs k v = kvs := by
  induction kvs with
  | nil => simp [jLookup] at h
  | cons e rest ih =>
    obtain ⟨k', v'⟩ := e
    by_cases hk : k' = k
    · subst hk
      simp [jLookup] at h
      simp [jStore, h]
    · simp [jLookup, hk] at h
      simp [jStore, hk, ih h]

theorem getField_setField_self {j : JVal} {k : String} {v : JVal}
    (h : getField j k = some v) : setField j k v = j := by
  cases j
  all_goals simp [getField] at h
  simp [setField]
  exact jLookup_jStore_self h

theorem jLookup_jStore_same (kvs : List (String × JVal)) (k : String) (v : JVal) :
    jLookup (jStore kvs k v) k = some v := by
  induction kvs with
  | nil => simp [jStore, jLookup]
  | cons e rest ih =>
    obtain ⟨k', v'⟩ := e
    by_cases hk : k' = k
    · subst hk; simp [jStore, jLookup]
    · simp [jStore, hk, jLookup, ih]

theorem getField_setField_obj (kvs : List (String × JVal)) (k : String) (v : JVal) :
    getField (setField (JVal.obj kvs) k v) k = some v := by
  simp [setField, getField, jLookup_jStore_same]

theorem jLookup_jErase_ne {kvs : List (String × JVal)} {k k' : String} (h : k' ≠ k) :
    jLookup (jErase kvs k') k = jLookup kvs k := by
  induction kvs with
  | nil => simp [jErase]
  | cons e rest ih =>
    obtain ⟨k'', v''⟩ := e
    by_cases hk : k'' = k'
    · subst hk
      simp [jErase, jLookup, h, ih]
    · simp [jErase, hk, jLookup, ih]

theorem getField_delField_ne {j : JVal} {k k' : String} (h : k' ≠ k) :
    getField (delField j k') k = getField j k := by
  cases j
  all_goals simp [delField, getField]
  exact jLookup_jErase_ne h

theorem jLookup_jStore_ne {kvs : List (String × JVal)} {k k' : String} {v : JVal}
    (h : k' ≠ k) : jLookup (jStore kvs k' v) k = jLookup kvs k := by
  induction kvs with
  | nil => simp [jStore, jLookup, h]
  | cons e rest ih =>
    obtain ⟨k'', v''⟩ := e
    by_cases hk : k'' = k'
    · subst hk; simp [jStore, jLookup, h]
    · simp [jStore, hk, jLookup, ih]

theorem getField_setField_ne {j : JVal} {k k' : String} {v : JVal} (h : k' ≠ k) :
    getField (setField j k' v) k = getField j k := by
  cases j <;> simp [setField, getField]
  exact jLookup_jStore_ne h

/-- C8: In the published-path computation used by media rewriting, the
file's base-name segment is appended to the entity's relative directory
exactly when the source relative path ends in `.json` (case-insensitively)
and its base name does not denote the aggregated-bundle document
(`entity+deps…`); for folder entities and for the aggregated-bundle
document the relative directory is used as-is. -/
theorem C8_published_path_rule (raw : String) :
    (strEndsWith (strToLower raw) ".json" = true →
     strStartsWith (strToLower (posixBasename raw)) "entity+deps" = false →
     parentRelOf raw =
       posixJoin (posixDirname raw) (stripJsonExtension (posixBasename raw))) ∧
    (strEndsWith (strToLower raw) ".json" = false ∨
     strStartsWith (strToLower (posixBasename raw)) "entity+deps" = true →
     parentRelOf raw = posixDirname raw) := by
  constructor
  · intro h1 h2
    simp [parentRelOf, h1, h2]
  · intro h
    cases h with
    | inl h1 => simp [parentRelOf, h1]
    | inr h2 => simp [parentRelOf, h2]

/-- Witness for C8 at concrete paths: a standalone `Feeds/X.json` gains the
`X` segment; the aggregated `Programs/Show/entity+deps.json` does not. -/
theorem C8_published_path_rule_witness :
    parentRelOf "Feeds/X.json" = "Feeds/X" ∧
    parentRelOf "Programs/Show/entity+deps.json" = "Programs/Show" := by
  constructor
  · have h := (C8_published_path_rule "Feeds/X.json").1 (by decide) (by decide)
    rw [h]; decide
  · have h := (C8_published_path_rule "Programs/Show/entity+deps.json").2 (Or.inr (by decide))
    rw [h]; decide

/-- C9: For every input record (including the empty record) and every kind
string, `buildDigest` returns normally and its result contains the fields
`entityType`, `id` and `lastModified`; unrecognized kinds yield the generic
digest with `entityType` `"Unknown"`. -/
theorem C9_buildDigest_total (ctx : Ctx) (rootJson : JVal) (kind uid : String) :
    ((getField (buildDigest ctx rootJson kind uid) "entityType").isSome = true ∧
     (getField (buildDigest ctx rootJson kind uid) "id").isSome = true ∧
     (getField (buildDigest ctx rootJson kind uid) "lastModified").isSome = true) ∧
    (strToLower kind ∉ ["persons", "feeds", "soundsets", "generativeais",
        "pagecontents", "apicontents", "programs", "broadcasts", "catalogs"] →
      getField (buildDigest ctx rootJson kind uid) "entityType" =
        some (JVal.str "Unknown")) := by
  unfold buildDigest
  split
  all_goals
    simp [parsePersonDigest, parseFeedDigest, parseSoundSetDigest,
      parseGenerativeAiDigest, parsePageContentDigest, parseApiContentDigest,
      parseProgramDigest, parseBroadcastDigest, parseCatalogDigest,
      getField, jLookup]
  all_goals (intro h; simp_all)

/-- Witness for C9 at the empty record and the unrecognized kind
`"Widgets"`: the digest exists with `entityType` `"Unknown"` and carries an
id and a last-modified stamp. -/
theorem C9_buildDigest_total_witness :
    getField (buildDigest demoCtx (JVal.obj []) "Widgets" "u1") "entityType" =
      some (JVal.str "Unknown") ∧
    (getField (buildDigest demoCtx (JVal.obj []) "Widgets" "u1") "id").isSome = true ∧
    (getField (buildDigest demoCtx (JVal.obj []) "Widgets" "u1") "lastModified").isSome
      = true := by
  have h := C9_buildDigest_total demoCtx (JVal.obj []) "Widgets" "u1"
  exact ⟨h.2 (by decide), h.1.2.1, h.1.2.2⟩

/- ### No-op lemmas for media extraction on media-free records -/

theorem processElement_skip {ctx : Ctx} {parentRel soundsFolder : String}
    {el : JVal} {ids : List String}
    (h : jTruthyO (getField el "embeddedSoundBase64") = false) :
    processElement ctx parentRel soundsFolder el ids = (el, [], [], ids) := by
  unfold processElement
  simp [h]

theorem processElements_skip {ctx : Ctx} {parentRel soundsFolder : String}
    {els : List JVal} {ids : List String}
    (h : ∀ el ∈ els, jTruthyO (getField el "embeddedSoundBase64") = false) :
    processElements ctx parentRel soundsFolder els ids = (els, [], [], ids) := by
  induction els with
  | nil => simp [processElements]
  | cons e rest ih =>
    simp [processElements, processElement_skip (h e (by simp)),
      ih (fun el hel => h el (by simp [hel]))]

theorem processAudioKeys_noop {ctx : Ctx} {parentRel soundsFolder : String}
    {keys : List String} {spec : JVal} {ids : List String}
    (h : ∀ k ∈ keys, ∀ els, getField spec k = some (JVal.arr els) →
       ∀ el ∈ els, jTruthyO (getField el "embeddedSoundBase64") = false) :
    processAudioKeys ctx parentRel soundsFolder keys spec ids = (spec, [], [], ids) := by
  induction keys with
  | nil => simp [processAudioKeys]
  | cons k ks ih =>
    unfold processAudioKeys
    split
    · next els heq =>
      simp [processElements_skip (h k (by simp) els heq),
        getField_setField_self heq, ih (fun k' hk' => h k' (by simp [hk']))]
    · exact ih (fun k' hk' => h k' (by simp [hk']))

theorem rewriteSoundStep_noop {ctx : Ctx} {entityType parentRel entitySubfolder : String}
    {spec : JVal} {ids : List String}
    (h : ∀ k ∈ audioKeys, ∀ els, getField spec k = some (JVal.arr els) →
       ∀ el ∈ els, jTruthyO (getField el "embeddedSoundBase64") = false) :
    rewriteSoundStep ctx entityType parentRel entitySubfolder spec ids =
      (spec, [], (rewriteSoundStep ctx entityType parentRel entitySubfolder spec ids).2.2.1,
       ids) := by
  unfold rewriteSoundStep
  split
  · simp [processAudioKeys_noop h]
  · simp

/-- Central no-op lemma: on a record whose (truthy) spec carries no embedded
image, no `local`/`generated` image reference and no embedded audio in any
BGM array, media extraction leaves the record unchanged, writes no files,
and consumes no fresh ids. -/
theorem extract_noop (ctx : Ctx) (json spec : JVal)
    (entitySubfolder imageFileName rawRelativePath : String) (ids : List String)
    (hspec : getField json "spec" = some spec) (hspecT : jTruthy spec = true)
    (hnoimg : jTruthyO (getField spec "embeddedImageBase64") = false)
    (himg : ∀ iv, getField spec "imageSource" = some iv →
       ∀ k, getField iv "kind" = some (JVal.str k) → k ≠ "local" ∧ k ≠ "generated")
    (hsounds : ∀ k ∈ audioKeys, ∀ els, getField spec k = some (JVal.arr els) →
       ∀ el ∈ els, jTruthyO (getField el "embeddedSoundBase64") = false) :
    (extractEmbeddedMediaAndRewrite ctx json entitySubfolder imageFileName
        rawRelativePath ids).record = json ∧
    (extractEmbeddedMediaAndRewrite ctx json entitySubfolder imageFileName
        rawRelativePath ids).written = [] ∧
    (extractEmbeddedMediaAndRewrite ctx json entitySubfolder imageFileName
        rawRelativePath ids).ids = ids := by
  have hj : jOrObj (getField json "spec") = spec := by
    simp [jOrObj, jOr, hspec, hspecT]
  have himage : ∀ sub img pr api,
      rewriteImageStep ctx spec sub img pr api = (spec, []) := by
    intro sub img pr api
    unfold rewriteImageStep
    rw [hnoimg]
    simp only [Bool.false_eq_true, if_false]
    split
    · next iv hiv =>
      have hfalse : (jTruthy iv &&
          match getField iv "kind" with
          | some (JVal.str k) => k == "local" || k == "generated"
          | _ => false) = false := by
        cases hk : getField iv "kind" with
        | none => simp
        | some kv =>
          cases kv with
          | str k =>
            obtain ⟨h1, h2⟩ := himg iv hiv k hk
            simp [h1, h2]
          | _ => simp
      rw [hfalse]
      simp
    · rfl
  unfold extractEmbeddedMediaAndRewrite
  simp only [hj, himage]
  rw [rewriteSoundStep_noop hsounds]
  simp [getField_setField_self hspec]

/-- C7: Idempotence of media rewriting — running
`extractEmbeddedMediaAndRewrite` on a record whose image reference and all
sound references are already tagged `remote` and which carries no embedded
payloads is a no-op: the record is unchanged and no files are written. -/
theorem C7_rewrite_idempotent_on_remote (ctx : Ctx) (json spec : JVal)
    (entitySubfolder imageFileName rawRelativePath : String) (ids : List String)
    (hspec : getField json "spec" = some spec) (hspecT : jTruthy spec = true)
    (hnoimg : jTruthyO (getField spec "embeddedImageBase64") = false)
    (himg : ∀ iv, getField spec "imageSource" = some iv →
       getField iv "kind" = some (JVal.str "remote"))
    (_hsoundsrc : ∀ k ∈ audioKeys, ∀ els, getField spec k = some (JVal.arr els) →
       ∀ el ∈ els, ∀ ss, getField el "soundSource" = some ss →
         getField ss "kind" = some (JVal.str "remote"))
    (hsounds : ∀ k ∈ audioKeys, ∀ els, getField spec k = some (JVal.arr els) →
       ∀ el ∈ els, jTruthyO (getField el "embeddedSoundBase64") = false) :
    (extractEmbeddedMediaAndRewrite ctx json entitySubfolder imageFileName
        rawRelativePath ids).record = json ∧
    (extractEmbeddedMediaAndRewrite ctx json entitySubfolder imageFileName
        rawRelativePath ids).written = [] := by
  have h := extract_noop ctx json spec entitySubfolder imageFileName rawRelativePath ids
    hspec hspecT hnoimg
    (fun iv hiv k hk => by
      have hr := himg iv hiv
      rw [hr] at hk
      have : k = "remote" := by
        have := Option.some.inj hk
        exact (JVal.str.inj this).symm
      subst this
      exact ⟨by decide, by decide⟩)
    hsounds
  exact ⟨h.1, h.2.1⟩

/-- Record used by the C7 witness: a Feed whose image reference is already
remote and whose one BGM-style array element has a remote sound source and
no embedded payload. -/
def remoteRec : JVal :=
  JVal.obj [("spec", JVal.obj [
    ("imageSource", JVal.obj [("kind", JVal.str "remote"),
      ("url", JVal.str "http://x/Feeds/A/feed.png")]),
    ("openingBGM", JVal.arr [JVal.obj [("id", JVal.str "e1"),
      ("soundSource", JVal.obj [("kind", JVal.str "remote"),
        ("url", JVal.str "http://x/s.m4a")])]])])]

/-- Witness for C7 at the concrete already-remote record: extraction
changes nothing and writes nothing. -/
theorem C7_rewrite_idempotent_on_remote_witness :
    (extractEmbeddedMediaAndRewrite demoCtx remoteRec "docs/SoundSets/A"
        "soundset.png" "SoundSets/A.json" []).record = remoteRec ∧
    (extractEmbeddedMediaAndRewrite demoCtx remoteRec "docs/SoundSets/A"
        "soundset.png" "SoundSets/A.json" []).written = [] := by
  apply C7_rewrite_idempotent_on_remote demoCtx remoteRec
    (JVal.obj [
      ("imageSource", JVal.obj [("kind", JVal.str "remote"),
        ("url", JVal.str "http://x/Feeds/A/feed.png")]),
      ("openingBGM", JVal.arr [JVal.obj [("id", JVal.str "e1"),
        ("soundSource", JVal.obj [("kind", JVal.str "remote"),
          ("url", JVal.str "http://x/s.m4a")])]])])
    "docs/SoundSets/A" "soundset.png" "SoundSets/A.json" []
  · rfl
  · rfl
  · rfl
  · intro iv hiv
    have : JVal.obj [("kind", JVal.str "remote"),
        ("url", JVal.str "http://x/Feeds/A/feed.png")] = iv := Option.some.inj hiv
    subst this
    rfl
  · intro k hk els hels
    fin_cases hk
    · have : JVal.arr [JVal.obj [("id", JVal.str "e1"),
          ("soundSource", JVal.obj [("kind", JVal.str "remote"),
            ("url", JVal.str "http://x/s.m4a")])]] = JVal.arr els := Option.some.inj hels
      have hels' := JVal.arr.inj this
      subst hels'
      intro el hel ss hss
      simp at hel
      subst hel
      have : JVal.obj [("kind", JVal.str "remote"),
          ("url", JVal.str "http://x/s.m4a")] = ss := Option.some.inj hss
      subst this
      rfl
    all_goals simp [getField, jLookup] at hels
  · intro k hk els hels
    fin_cases hk
    · have : JVal.arr [JVal.obj [("id", JVal.str "e1"),
          ("soundSource", JVal.obj [("kind", JVal.str "remote"),
            ("url", JVal.str "http://x/s.m4a")])]] = JVal.arr els := Option.some.inj hels
      have hels' := JVal.arr.inj this
      subst hels'
      intro el hel
      simp at hel
      subst hel
      rfl
    all_goals simp [getField, jLookup] at hels

/-- C5 counterexample: the standalone media-free Feed document
`{spec:{name:"A"}}` (no id) is written back verbatim — its spec still has
no `id` field — contradicting the claim that a document without an id
receives one when processed. (Fresh ids appear only in the digest, never in
the persisted document.) -/
theorem C5_roundtrip_counterexample :
    (processEntityJson demoCtx (JContent.rawc "A") "A.json" "docs/Feeds"
        "Feeds/A.json" []).2.1 =
      [("docs/Feeds/A/entity.json",
        OutFile.json (JVal.obj [("spec", JVal.obj [("name", JVal.str "A")])]))] ∧
    getField (JVal.obj [("name", JVal.str "A")]) "id" = none := ⟨rfl, rfl⟩

/-- C5 (amended): a standalone JSON entity document with a truthy `spec`
and no media references is written out exactly equal to the parsed input —
unrecognized fields preserved, and the id unchanged even when absent (no id
is ever added to the document; generated ids live only in the digest) —
and no other file is written for it. -/
theorem C5_roundtrip_amended (ctx : Ctx) (content : JContent)
    (fileName parentTargetDir rawRelativePath : String) (ids : List String)
    (json spec : JVal)
    (hparse : parseContent ctx content = some json)
    (hspec : getField json "spec" = some spec) (hspecT : jTruthy spec = true)
    (hnoimg : jTruthyO (getField spec "embeddedImageBase64") = false)
    (himg : ∀ iv, getField spec "imageSource" = some iv →
       ∀ k, getField iv "kind" = some (JVal.str k) → k ≠ "local" ∧ k ≠ "generated")
    (hsounds : ∀ k ∈ audioKeys, ∀ els, getField spec k = some (JVal.arr els) →
       ∀ el ∈ els, jTruthyO (getField el "embeddedSoundBase64") = false) :
    (processEntityJson ctx content fileName parentTargetDir rawRelativePath ids).2.1 =
      [(posixJoin (posixJoin parentTargetDir
          (sanitizeForFilesystem (stripJsonExtension fileName))) "entity.json",
        OutFile.json json)] := by
  have hrec : ∀ sub img i, (extractEmbeddedMediaAndRewrite ctx json sub img
      rawRelativePath i).record = json :=
    fun sub img i =>
      (extract_noop ctx json spec sub img rawRelativePath i hspec hspecT hnoimg
        himg hsounds).1
  have hwr : ∀ sub img i, (extractEmbeddedMediaAndRewrite ctx json sub img
      rawRelativePath i).written = [] :=
    fun sub img i =>
      (extract_noop ctx json spec sub img rawRelativePath i hspec hspecT hnoimg
        himg hsounds).2.1
  unfold processEntityJson
  rw [hparse]
  simp only [hrec, hwr, List.nil_append]

/-- Witness for C5 (amended) at the concrete media-free document
`{spec:{name:"A"}}`. -/
theorem C5_roundtrip_amended_witness :
    (processEntityJson demoCtx (JContent.rawc "A") "A2.json" "docs/Feeds"
        "Feeds/A2.json" []).2.1 =
      [("docs/Feeds/A2/entity.json",
        OutFile.json (JVal.obj [("spec", JVal.obj [("name", JVal.str "A")])]))] := by
  have h := C5_roundtrip_amended demoCtx (JContent.rawc "A") "A2.json" "docs/Feeds"
    "Feeds/A2.json" [] (JVal.obj [("spec", JVal.obj [("name", JVal.str "A")])])
    (JVal.obj [("name", JVal.str "A")]) rfl rfl rfl rfl
    (fun iv hiv => by simp [getField, jLookup] at hiv)
    (fun k hk els hels => by
      fin_cases hk
      all_goals simp [getField, jLookup] at hels)
  rw [h]
  rfl

/-- C10 counterexample: the source document `5` (a non-object JSON value)
parses truthily, is processed as an entity, and is written back as `5` —
with no `spec` field, since property assignment on a primitive is a silent
no-op — contradicting the claim that every written entity document carries
a `spec` field. -/
theorem C10_spec_field_counterexample :
    (processEntityJson demoCtx (JContent.rawc "5") "Five.json" "docs/Feeds"
        "Feeds/Five.json" []).2.1 =
      [("docs/Feeds/Five/entity.json", OutFile.json (JVal.num 5))] ∧
    getField (JVal.num 5) "spec" = none := ⟨rfl, rfl⟩

/-- The record part of a media rewrite is always the input with its `spec`
reassigned. -/
theorem extract_record_def (ctx : Ctx) (json : JVal)
    (entitySubfolder imageFileName rawRelativePath : String) (ids : List String) :
    (extractEmbeddedMediaAndRewrite ctx json entitySubfolder imageFileName
        rawRelativePath ids).record =
      setField json "spec"
        (rewriteSoundStep ctx (getTopLevelFolder rawRelativePath)
          (parentRelOf rawRelativePath) entitySubfolder
          (rewriteImageStep ctx (jOrObj (getField json "spec")) entitySubfolder
            imageFileName (parentRelOf rawRelativePath)
            (["apicontents", "generativeais", "pagecontents", "catalogs"].contains
              (strToLower (getTopLevelFolder rawRelativePath)))).1 ids).1 := rfl

theorem rewriteImageStep_empty (ctx : Ctx)
    (entitySubfolder imageFileName parentRel : String) (api : Bool) :
    rewriteImageStep ctx (JVal.obj []) entitySubfolder imageFileName parentRel api =
      (JVal.obj [], []) := rfl

theorem rewriteSoundStep_empty (ctx : Ctx)
    (entityType parentRel entitySubfolder : String) (ids : List String) :
    (rewriteSoundStep ctx entityType parentRel entitySubfolder (JVal.obj []) ids).1 =
      JVal.obj [] := by
  unfold rewriteSoundStep
  split
  · show (processAudioKeys ctx parentRel (posixJoin entitySubfolder "sounds")
      audioKeys (JVal.obj []) ids).1 = JVal.obj []
    rfl
  · rfl

/-- C10 (amended): every object-shaped record passed through media
rewriting ends up with a `spec` field (the spec is unconditionally assigned
back), and a record whose `spec` was absent or falsy ends up with
`spec: {}`; non-object JSON documents, however, pass through unchanged and
never gain a `spec` field (see the counterexample). -/
theorem C10_spec_field_amended (ctx : Ctx) (kvs : List (String × JVal))
    (entitySubfolder imageFileName rawRelativePath : String) (ids : List String) :
    ((getField (extractEmbeddedMediaAndRewrite ctx (JVal.obj kvs) entitySubfolder
        imageFileName rawRelativePath ids).record "spec").isSome = true) ∧
    (jTruthyO (jLookup kvs "spec") = false →
      getField (extractEmbeddedMediaAndRewrite ctx (JVal.obj kvs) entitySubfolder
        imageFileName rawRelativePath ids).record "spec" = some (JVal.obj [])) := by
  constructor
  · rw [extract_record_def]
    simp [getField_setField_obj]
  · intro h
    have hz : jOrObj (getField (JVal.obj kvs) "spec") = JVal.obj [] := by
      simp only [getField]
      cases hl : jLookup kvs "spec" with
      | none => simp [jOrObj, jOr]
      | some v =>
        rw [hl] at h
        simp [jTruthyO] at h
        simp [jOrObj, jOr, h]
    rw [extract_record_def, hz, rewriteImageStep_empty]
    rw [rewriteSoundStep_empty]
    exact getField_setField_obj kvs "spec" (JVal.obj [])

/-- Witness for C10 (amended) at a concrete record without a `spec` field:
the rewritten record carries `spec: {}`. -/
theorem C10_spec_field_amended_witness :
    getField (extractEmbeddedMediaAndRewrite demoCtx
        (JVal.obj [("name", JVal.str "N")]) "docs/Feeds/N" "feed.png"
        "Feeds/N.json" []).record "spec" = some (JVal.obj []) :=
  (C10_spec_field_amended demoCtx [("name", JVal.str "N")] "docs/Feeds/N"
    "feed.png" "Feeds/N.json" []).2 (by decide)

theorem jLookup_jErase_self (kvs : List (String × JVal)) (k : String) :
    jLookup (jErase kvs k) k = none := by
  induction kvs with
  | nil => simp [jErase, jLookup]
  | cons e rest ih =>
    obtain ⟨k', v'⟩ := e
    by_cases hk : k' = k
    · subst hk; simp [jErase, ih]
    · simp [jErase, hk, jLookup, ih]

theorem getField_delField_self (j : JVal) (k : String) :
    getField (delField j k) k = none := by
  cases j
  all_goals simp [delField, getField]
  exact jLookup_jErase_self _ _

/-- C6 counterexample: extracting the embedded audio of a BGM element that
had no id produces an element that still has no `id` field — the freshly
generated id (`u1`) appears only in the `sounds/u1/u1.m4a` URL path —
contradicting the claim that the element ends up carrying an id. -/
theorem C6_bgm_extraction_counterexample :
    (extractEmbeddedMediaAndRewrite demoCtx soundRec "docs/SoundSets/S"
        "soundset.png" "SoundSets/S.json" ["u1"]).record =
      JVal.obj [("spec", JVal.obj [("openingBGM", JVal.arr [JVal.obj [("soundSource",
        JVal.obj [("kind", JVal.str "remote"),
          ("url", JVal.str "http://x/SoundSets/S/sounds/u1/u1.m4a")])]])])] ∧
    getField (JVal.obj [("soundSource", JVal.obj [("kind", JVal.str "remote"),
        ("url", JVal.str "http://x/SoundSets/S/sounds/u1/u1.m4a")])]) "id" = none :=
  ⟨rfl, rfl⟩

/-- C6 (amended): a BGM element carrying a truthy embedded base64 payload
has, after extraction, its two embedded fields removed and its
`soundSource` set to `{kind:"remote", url: baseUrl + <parentRel>/sounds/
<elementId>/<fileName>}` with the decoded audio written to
`<soundsFolder>/<elementId>/<fileName>`, where the element id is the
element's own truthy id or a freshly generated one, and the file name comes
from the declared original file name (keeping its extension, which may be
empty) or, when none is declared, is `<elementId>.m4a`; the element's `id`
field itself is left untouched — an element without an id stays without
one. -/
theorem C6_bgm_extraction_amended (ctx : Ctx) (parentRel soundsFolder : String)
    (el : JVal) (ids ids' : List String) (b eid : String) (fn : Option String)
    (hb : getField el "embeddedSoundBase64" = some (JVal.str b)) (hbne : b ≠ "")
    (hfn : declaredSoundFileName (getField el "embeddedSoundFileName") = some fn)
    (hid : chooseElementId el ids = (JVal.str eid, ids')) :
    processElement ctx parentRel soundsFolder el ids =
      (setField (delField (delField el "embeddedSoundBase64") "embeddedSoundFileName")
         "soundSource"
         (JVal.obj [("kind", JVal.str "remote"),
           ("url", JVal.str (ctx.baseUrl ++ "/" ++
             posixJoin4 (sanitizeForFilesystem parentRel) "sounds" eid
               (soundFinalFileName fn eid)))]),
       [(posixJoin (posixJoin soundsFolder eid) (soundFinalFileName fn eid),
         OutFile.media b)],
       [posixJoin soundsFolder eid], ids') ∧
    getField (processElement ctx parentRel soundsFolder el ids).1 "id" =
      getField el "id" ∧
    getField (processElement ctx parentRel soundsFolder el ids).1
      "embeddedSoundBase64" = none ∧
    getField (processElement ctx parentRel soundsFolder el ids).1
      "embeddedSoundFileName" = none := by
  have htruthy : jTruthy el = true := by
    cases el
    all_goals simp [getField] at hb
    rfl
  have hmain : processElement ctx parentRel soundsFolder el ids =
      (setField (delField (delField el "embeddedSoundBase64") "embeddedSoundFileName")
         "soundSource"
         (JVal.obj [("kind", JVal.str "remote"),
           ("url", JVal.str (ctx.baseUrl ++ "/" ++
             posixJoin4 (sanitizeForFilesystem parentRel) "sounds" eid
               (soundFinalFileName fn eid)))]),
       [(posixJoin (posixJoin soundsFolder eid) (soundFinalFileName fn eid),
         OutFile.media b)],
       [posixJoin soundsFolder eid], ids') := by
    have hguard : (!(jTruthy el && jTruthyO (getField el "embeddedSoundBase64"))) = false := by
      rw [hb, htruthy]
      simp [jTruthyO, jTruthy, hbne]
    have hb' : jTruthyO (some (JVal.str b)) = true := by
      simp [jTruthyO, jTruthy, hbne]
    unfold processElement
    simp [hguard, hb, hfn, hid, getFieldD, htruthy, hb']
  refine ⟨hmain, ?_, ?_, ?_⟩
  · rw [hmain]
    simp only
    rw [getField_setField_ne (by decide), getField_delField_ne (by decide),
      getField_delField_ne (by decide)]
  · rw [hmain]
    simp only
    rw [getField_setField_ne (by decide), getField_delField_ne (by decide),
      getField_delField_self]
  · rw [hmain]
    simp only
    rw [getField_setField_ne (by decide), getField_delField_self]

/-- Witness for C6 (amended) at a concrete element with an embedded payload
and no id or declared file name. -/
theorem C6_bgm_extraction_amended_witness :
    processElement demoCtx "SoundSets/S" "docs/SoundSets/S/sounds"
        (JVal.obj [("embeddedSoundBase64", JVal.str "QUJD")]) ["u1"] =
      (JVal.obj [("soundSource", JVal.obj [("kind", JVal.str "remote"),
          ("url", JVal.str "http://x/SoundSets/S/sounds/u1/u1.m4a")])],
       [("docs/SoundSets/S/sounds/u1/u1.m4a", OutFile.media "QUJD")],
       ["docs/SoundSets/S/sounds/u1"], []) ∧
    getField (processElement demoCtx "SoundSets/S" "docs/SoundSets/S/sounds"
        (JVal.obj [("embeddedSoundBase64", JVal.str "QUJD")]) ["u1"]).1 "id" = none := by
  have h := C6_bgm_extraction_amended demoCtx "SoundSets/S" "docs/SoundSets/S/sounds"
    (JVal.obj [("embeddedSoundBase64", JVal.str "QUJD")]) ["u1"] [] "QUJD" "u1" none
    rfl (by decide) rfl rfl
  constructor
  · rw [h.1]
    rfl
  · rw [h.2.1]
    rfl

/-- C3: Every id-lookup resolution (`pick`) excludes records whose
`spec.type` equals `"predefined"` or `"preInstalled"`, and yields nothing
for missing or unparsable resolutions; sound-element records gathered from
the `soundset/<id>/soundElement/*` subtree are included with no such
filter — any truthily-parsed element record is in the result. -/
theorem C3_builtin_filter_and_unconditional_sound_elements :
    (∀ (ctx : Ctx) (pkgRoot : JTree) (relPath : String) (r : JVal),
      pick ctx pkgRoot relPath = some r →
        getField (jOrObj (getField r "spec")) "type" ≠ some (JVal.str "predefined") ∧
        getField (jOrObj (getField r "spec")) "type" ≠ some (JVal.str "preInstalled")) ∧
    (∀ (ctx : Ctx) (pkgRoot : JTree) (relPath : String),
      treeGetFile pkgRoot (strSplitSlash relPath ++ ["entity.json"]) = none →
        pick ctx pkgRoot relPath = none) ∧
    (∀ (ctx : Ctx) (pkgRoot : JTree) (relPath : String) (c : JContent),
      treeGetFile pkgRoot (strSplitSlash relPath ++ ["entity.json"]) = some c →
      parseContent ctx c = none →
        pick ctx pkgRoot relPath = none) ∧
    (∀ (ctx : Ctx) (pkgRoot : JTree) (soundSetId : String)
       (dirs : List (String × JTree)) (e : String × JTree) (v : JVal),
      treeGet pkgRoot ["soundset", soundSetId, "soundElement"] = some (JTree.dir dirs) →
      e ∈ dirs → gatherOne ctx e = some v →
        v ∈ gatherSoundElements ctx pkgRoot soundSetId) := by
  refine ⟨?_, ?_, ?_, ?_⟩
  · intro ctx pkgRoot relPath r h
    unfold pick at h
    split at h
    · exact absurd h (by simp)
    · split at h
      · exact absurd h (by simp)
      · split at h
        · exact absurd h (by simp)
        · next hbi =>
          obtain rfl : _ = r := Option.some.inj h
          unfold isBuiltinType at hbi
          split at hbi
          · next t heq =>
            simp at hbi
            rw [heq]
            constructor
            · intro hc
              exact hbi.1 (JVal.str.inj (Option.some.inj hc))
            · intro hc
              exact hbi.2 (JVal.str.inj (Option.some.inj hc))
          · next hno =>
            constructor
            · intro hc
              exact hno "predefined" hc
            · intro hc
              exact hno "preInstalled" hc
  · intro ctx pkgRoot relPath h
    unfold pick
    rw [h]
  · intro ctx pkgRoot relPath c h hp
    unfold pick
    rw [h]
    simp [hp]
  · intro ctx pkgRoot soundSetId dirs e v hdirs hmem hone
    unfold gatherSoundElements
    rw [hdirs]
    exact List.mem_filterMap.mpr ⟨e, hmem, hone⟩

/-- Witness for C3 at concrete packages: the resolved user-defined feed is
not built-in; a missing resolution gives nothing; and the `preInstalled`
sound element is still gathered. -/
theorem C3_builtin_filter_witness :
    (getField (jOrObj (getField feedRec "spec")) "type" ≠
        some (JVal.str "predefined")) ∧
    pick demoCtx (JTree.dir []) "feed/zz" = none ∧
    sePre ∈ gatherSoundElements demoCtx pkgSE "s1" := by
  refine ⟨?_, ?_, ?_⟩
  · exact (C3_builtin_filter_and_unconditional_sound_elements.1 demoCtx pkgUser
      "feed/f1" feedRec rfl).1
  · exact C3_builtin_filter_and_unconditional_sound_elements.2.1 demoCtx
      (JTree.dir []) "feed/zz" rfl
  · exact C3_builtin_filter_and_unconditional_sound_elements.2.2.2 demoCtx pkgSE "s1"
      [("e1", JTree.dir [("entity.json", JTree.file (JContent.jsonc sePre))])]
      ("e1", JTree.dir [("entity.json", JTree.file (JContent.jsonc sePre))])
      sePre rfl (List.mem_singleton.mpr rfl) rfl

/-- C4 counterexample: a Program spec whose top-level `feedIds` lists the
same id `f1` twice yields a dependency bundle whose `feeds` group contains
the resolved record twice — top-level candidate ids are not collected into
a set before resolution. -/
theorem C4_dedup_counterexample :
    getField (getFieldD (buildAggregatedBlob demoCtx specDupFeeds pkgUser)
        "dependencies") "feeds" =
      some (JVal.arr [feedRec, feedRec]) := rfl

/-- Pairwise distinctness of collected id values under the structural
equality used for `Set` membership. -/
def JDistinct (l : List JVal) : Prop :=
  List.Pairwise (fun a b => jEqB a b = false) l

/-- All four segment-derived candidate sets are duplicate-free. -/
def SegDistinct (s : SegSets) : Prop :=
  JDistinct s.feeds ∧ JDistinct s.apis ∧ JDistinct s.pages ∧ JDistinct s.ais

theorem insertJ_distinct {l : List JVal} {x : JVal} (h : JDistinct l) :
    JDistinct (insertJ l x) := by
  unfold insertJ
  split
  · exact h
  · next hany =>
    rw [JDistinct, List.pairwise_append]
    refine ⟨h, List.pairwise_singleton _ _, ?_⟩
    intro a ha b hb
    rw [List.mem_singleton] at hb
    subst hb
    by_contra hcon
    rw [Bool.not_eq_false] at hcon
    exact hany (List.any_eq_true.mpr ⟨a, ha, hcon⟩)

theorem addAiId_distinct (s : JVal) {acc : SegSets} (h : SegDistinct acc) :
    SegDistinct (addAiId s acc) := by
  unfold addAiId
  split
  · exact ⟨h.1, h.2.1, h.2.2.1, insertJ_distinct h.2.2.2⟩
  · exact h

theorem addFeedId_distinct (src : JVal) {acc : SegSets} (h : SegDistinct acc) :
    SegDistinct (addFeedId src acc) := by
  unfold addFeedId
  split
  · exact ⟨insertJ_distinct h.1, h.2.1, h.2.2.1, h.2.2.2⟩
  · exact h

theorem addApiId_distinct (src : JVal) {acc : SegSets} (h : SegDistinct acc) :
    SegDistinct (addApiId src acc) := by
  unfold addApiId
  split
  · exact ⟨h.1, insertJ_distinct h.2.1, h.2.2.1, h.2.2.2⟩
  · exact h

theorem addPageId_distinct (src : JVal) {acc : SegSets} (h : SegDistinct acc) :
    SegDistinct (addPageId src acc) := by
  unfold addPageId
  split
  · exact ⟨h.1, h.2.1, insertJ_distinct h.2.2.1, h.2.2.2⟩
  · exact h

theorem segStep_distinct (s : JVal) {acc : SegSets} (h : SegDistinct acc) :
    SegDistinct (segStep s acc) := by
  unfold segStep
  split
  · exact addPageId_distinct _ (addApiId_distinct _ (addFeedId_distinct _
      (addAiId_distinct s h)))
  · exact addAiId_distinct s h

theorem walkSegments_distinct (fuel : Nat) :
    ∀ (segs : List JVal) (acc : SegSets), SegDistinct acc →
      SegDistinct (walkSegments fuel segs acc) := by
  induction fuel with
  | zero =>
    intro segs acc h
    cases segs
    · simpa [walkSegments] using h
    · simpa [walkSegments] using h
  | succ f ihf =>
    intro segs acc h
    cases segs with
    | nil => simpa [walkSegments] using h
    | cons s rest =>
      rw [walkSegments]
      apply ihf
      show SegDistinct (match getField s "subSegments" with
        | some (JVal.arr subs) => walkSegments f subs (segStep s acc)
        | _ => segStep s acc)
      have h2 := segStep_distinct s h
      split
      · exact ihf _ _ h2
      · exact h2

/-- C4 (amended): only the segment-tree walk collects candidate ids into
sets (each of its four sets is duplicate-free); the top-level list fields,
the singular model-id fields and the persons list are resolved as-is and
concatenated in front, so an id repeated there (or repeated between a
top-level field and the segment tree) contributes one record per
occurrence. -/
theorem C4_dedup_amended (ctx : Ctx) (programSpec : JVal) (pkgRoot : JTree) :
    (getField (getFieldD (buildAggregatedBlob ctx programSpec pkgRoot)
        "dependencies") "feeds" =
      some (JVal.arr ((jArrField programSpec "feedIds" ++
          (walkSegments (jSize programSpec) (jArrField programSpec "programSegments")
            ⟨[], [], [], []⟩).feeds).filterMap
        (fun f => pick ctx pkgRoot ("feed/" ++ jToStr f))))) ∧
    (getField (getFieldD (buildAggregatedBlob ctx programSpec pkgRoot)
        "dependencies") "apiContents" =
      some (JVal.arr ((jArrField programSpec "apiContentIds" ++
          (walkSegments (jSize programSpec) (jArrField programSpec "programSegments")
            ⟨[], [], [], []⟩).apis).filterMap
        (fun a => pick ctx pkgRoot ("apiContent/" ++ jToStr a))))) ∧
    (getField (getFieldD (buildAggregatedBlob ctx programSpec pkgRoot)
        "dependencies") "pageContents" =
      some (JVal.arr ((jArrField programSpec "pageContentIds" ++
          (walkSegments (jSize programSpec) (jArrField programSpec "programSegments")
            ⟨[], [], [], []⟩).pages).filterMap
        (fun p => pick ctx pkgRoot ("pageContent/" ++ jToStr p))))) ∧
    (getField (getFieldD (buildAggregatedBlob ctx programSpec pkgRoot)
        "dependencies") "persons" =
      some (JVal.arr ((jArrField programSpec "personalityIds").filterMap
        (fun p => pick ctx pkgRoot ("person/" ++ jToStr p))))) ∧
    (getField (getFieldD (buildAggregatedBlob ctx programSpec pkgRoot)
        "dependencies") "generativeAis" =
      some (JVal.arr ((([getFieldD programSpec "generatorModelId",
            getFieldD programSpec "summarizerModelId",
            getFieldD programSpec "translatorModelId",
            getFieldD programSpec "coverImageModelId"] ++
          (walkSegments (jSize programSpec) (jArrField programSpec "programSegments")
            ⟨[], [], [], []⟩).ais).filter jTruthy).filterMap
        (fun g => pick ctx pkgRoot ("generativeAi/" ++ jToStr g))))) ∧
    SegDistinct (walkSegments (jSize programSpec)
      (jArrField programSpec "programSegments") ⟨[], [], [], []⟩) := by
  have hseg : SegDistinct (walkSegments (jSize programSpec)
      (jArrField programSpec "programSegments") ⟨[], [], [], []⟩) :=
    walkSegments_distinct _ _ _
      ⟨List.Pairwise.nil, List.Pairwise.nil, List.Pairwise.nil, List.Pairwise.nil⟩
  refine ⟨?_, ?_, ?_, ?_, ?_, hseg⟩
  all_goals
    unfold buildAggregatedBlob
    simp [getFieldD, getField, jLookup]

/-- C2: the claim (and the stated resource contract) that the ephemeral
scratch directory is gone on every exit path is violated by the code on
the success path. Evaluating the unpacker model: with the entity directory
nested inside the extraction root, unpacking succeeds and the scratch root
still exists (emptied but present) when the call returns — `renameSync`
only moves the entity subtree out, and no `rmSync` follows; on the two
failure paths (no entity document, unparsable entity document) the scratch
directory is removed as claimed. -/
theorem C2_scratch_cleanup_leak_on_success :
    ((processProgramPackageZip zipCtxNested "zipbytes" "MyShow.zip" "docs/Programs"
        "Programs/MyShow.zip" []).item.isSome = true ∧
     (processProgramPackageZip zipCtxNested "zipbytes" "MyShow.zip" "docs/Programs"
        "Programs/MyShow.zip" []).tmpRoot = some (JTree.dir [])) ∧
    (processProgramPackageZip zipCtxNoEntity "zipbytes" "MyShow.zip" "docs/Programs"
        "Programs/MyShow.zip" []).tmpRoot = none ∧
    (processProgramPackageZip zipCtxBadEntity "zipbytes" "MyShow.zip" "docs/Programs"
        "Programs/MyShow.zip" []).tmpRoot = none :=
  ⟨⟨rfl, rfl⟩, rfl, rfl⟩

/-- C1 counterexample: running the walker on a source tree whose
`Feeds/Broken.json` fails to parse copies the raw file through unchanged
(first write), but the `Feeds` manifest's `items` list is empty — no
opaque-file stub `{name, path, isDirectory:false, downloadURL}` (and no
entity stub) is emitted for it, contradicting the claimed manifest item.
The run continues (the root manifest is still produced). -/
theorem C1_parse_failure_counterexample :
    (recurseAndBuildAllIndexes demoCtx brokenTree "docs" "" []).1 =
      [("docs/Feeds/Broken.json", OutFile.raw "oops"),
       ("docs/Feeds/index.json", OutFile.json (JVal.obj [("info", JVal.obj []),
         ("items", JVal.arr [])])),
       ("docs/index.json", OutFile.json (JVal.obj [("info", JVal.obj []),
         ("items", JVal.arr [JVal.obj [("name", JVal.str "Feeds"),
           ("path", JVal.str "Feeds"), ("isDirectory", JVal.bool true)]])]))] := rfl

theorem consItem_append (o : Option JVal) (a b : List JVal) :
    consItem o (a ++ b) = consItem o a ++ b := by
  cases o
  · rfl
  · rfl

theorem walkEntries_append (ctx : Ctx) (bs : List (String × JTree)) :
    ∀ (as' : List (String × JTree)) (targetDir webRel : String) (ids : List String),
    walkEntries ctx (as' ++ bs) targetDir webRel ids =
      ((walkEntries ctx as' targetDir webRel ids).1 ++
         (walkEntries ctx bs targetDir webRel
           (walkEntries ctx as' targetDir webRel ids).2.2).1,
       (walkEntries ctx as' targetDir webRel ids).2.1 ++
         (walkEntries ctx bs targetDir webRel
           (walkEntries ctx as' targetDir webRel ids).2.2).2.1,
       (walkEntries ctx bs targetDir webRel
         (walkEntries ctx as' targetDir webRel ids).2.2).2.2) := by
  intro as'
  induction as' with
  | nil =>
    intro tgt rel ids
    simp [walkEntries]
  | cons e rest ih =>
    intro tgt rel ids
    obtain ⟨name, sub⟩ := e
    simp only [List.cons_append]
    rw [walkEntries]
    conv_rhs => rw [walkEntries]
    dsimp only
    split
    · exact ih tgt rel ids
    · repeat' split
      all_goals simp [ih, consItem_append, List.append_assoc]

theorem walkEntries_json_parse_failure (ctx : Ctx) (rest : List (String × JTree))
    (name content targetDir webRel : String) (ids : List String)
    (h1 : strStartsWith name "." = false) (h2 : name ≠ "index.json")
    (h3 : name ≠ "repo-metadata.json")
    (hext : strToLower (extname name) = ".json")
    (hparse : parseContent ctx (JContent.rawc content) = none) :
    walkEntries ctx ((name, JTree.file (JContent.rawc content)) :: rest)
        targetDir webRel ids =
      ((walkEntries ctx rest targetDir webRel ids).1,
       (posixJoin targetDir name, OutFile.raw content) ::
         (walkEntries ctx rest targetDir webRel ids).2.1,
       (walkEntries ctx rest targetDir webRel ids).2.2) := by
  rw [walkEntries]
  have hskip : (strStartsWith name "." || name == "index.json" ||
      name == "repo-metadata.json") = false := by
    simp [h1, h2, h3]
  rw [hskip]
  have hzip : ¬ (strToLower (extname name) = ".zip" ∧
      strToLower (getTopLevelFolder (if webRel = "" then name
        else posixJoin webRel name)) = "programs") := by
    intro hc
    rw [hext] at hc
    exact absurd hc.1 (by decide)
  simp only [Bool.false_eq_true, if_false, hext, hzip, if_true]
  have hpej : processEntityJson ctx (JContent.rawc content) name targetDir
      (if webRel = "" then name else posixJoin webRel name) ids =
      (none, [(posixJoin targetDir name, OutFile.raw content)], ids) := by
    unfold processEntityJson
    rw [hparse]
    rfl
  simp [hpej, consItem]

/-- C1 (amended): a `.json` source file whose content fails to parse (or
parses to a falsy value) is copied raw and unchanged into the output
directory, and the enclosing directory's manifest contains NO item for it —
neither the claimed opaque-file stub with a `downloadURL` nor an entity
stub — while the surrounding entries are processed normally and the run
continues. -/
theorem C1_parse_failure_amended (ctx : Ctx)
    (pre suf : List (String × JTree)) (name content targetDir webRel : String)
    (ids : List String)
    (h1 : strStartsWith name "." = false) (h2 : name ≠ "index.json")
    (h3 : name ≠ "repo-metadata.json")
    (hext : strToLower (extname name) = ".json")
    (hparse : parseContent ctx (JContent.rawc content) = none) :
    walkEntries ctx (pre ++ (name, JTree.file (JContent.rawc content)) :: suf)
        targetDir webRel ids =
      ((walkEntries ctx pre targetDir webRel ids).1 ++
         (walkEntries ctx suf targetDir webRel
           (walkEntries ctx pre targetDir webRel ids).2.2).1,
       (walkEntries ctx pre targetDir webRel ids).2.1 ++
         (posixJoin targetDir name, OutFile.raw content) ::
           (walkEntries ctx suf targetDir webRel
             (walkEntries ctx pre targetDir webRel ids).2.2).2.1,
       (walkEntries ctx suf targetDir webRel
         (walkEntries ctx pre targetDir webRel ids).2.2).2.2) := by
  rw [walkEntries_append ctx ((name, JTree.file (JContent.rawc content)) :: suf) pre
    targetDir webRel ids]
  rw [walkEntries_json_parse_failure ctx suf name content targetDir webRel _
    h1 h2 h3 hext hparse]

/-- Witness for C1 (amended) at the concrete malformed `Broken.json`
between two healthy opaque files. -/
theorem C1_parse_failure_amended_witness :
    walkEntries demoCtx [("notes.txt", JTree.file (JContent.rawc "T")),
        ("Broken.json", JTree.file (JContent.rawc "oops")),
        ("readme.txt", JTree.file (JContent.rawc "R"))] "docs/Feeds" "Feeds" [] =
      ([JVal.obj [("name", JVal.str "notes.txt"), ("path", JVal.str "notes.txt"),
          ("isDirectory", JVal.bool false),
          ("downloadURL", JVal.str "http://x/Feeds/notes.txt")],
        JVal.obj [("name", JVal.str "readme.txt"), ("path", JVal.str "readme.txt"),
          ("isDirectory", JVal.bool false),
          ("downloadURL", JVal.str "http://x/Feeds/readme.txt")]],
       [("docs/Feeds/notes.txt", OutFile.raw "T"),
        ("docs/Feeds/Broken.json", OutFile.raw "oops"),
        ("docs/Feeds/readme.txt", OutFile.raw "R")], []) := by
  have h := C1_parse_failure_amended demoCtx
    [("notes.txt", JTree.file (JContent.rawc "T"))]
    [("readme.txt", JTree.file (JContent.rawc "R"))]
    "Broken.json" "oops" "docs/Feeds" "Feeds" []
    (by decide) (by decide) (by decide) (by decide) rfl
  rw [show ([("notes.txt", JTree.file (JContent.rawc "T")),
      ("Broken.json", JTree.file (JContent.rawc "oops")),
      ("readme.txt", JTree.file (JContent.rawc "R"))] :
        List (String × JTree)) =
      [("notes.txt", JTree.file (JContent.rawc "T"))] ++
        ("Broken.json", JTree.file (JContent.rawc "oops")) ::
          [("readme.txt", JTree.file (JContent.rawc "R"))] from rfl]
  rw [h]
  rfl

example : strToLower "Persons" = "persons" := by decide
example : strEndsWith (strToLower "Feeds/Broken.JSON") ".json" = true := by decide
example : posixJoin "." "Broken" = "Broken" := by decide
example : posixDirname "Feeds/Broken.json" = "Feeds" := by decide
example : posixBasename "Feeds/Broken.json" = "Broken.json" := by decide
example : extname "MyShow.zip" = ".zip" := by decide
example : extname "intro" = "" := by decide
example : extname ".bashrc" = "" := by decide
example : basenameMinusExt "dir/sound.m4a" ".m4a" = "sound" := by decide
example : stripJsonExtension "Broken.json" = "Broken" := by decide
example : stripZipExtension "Programs/MyShow.zip" = "Programs/MyShow" := by decide
example : sanitizeForFilesystem "My  Show" = "My-Show" := by decide
example : getTopLevelFolder "Persons/Featured/David.json" = "Persons" := by decide
example : posixJoin4 "SoundSets/S" "sounds" "u1" "u1.m4a" = "SoundSets/S/sounds/u1/u1.m4a" := by decide
